import Mathlib

/-!
# Verification of the picoclaw failover router and turn orchestrator

Shallow embedding of the Go sources:
* `pkg/agent/failover` (`Manager.OnLLMRateLimited`, `OnLLMSuccess`, `ShouldProbe`,
  `recordProbeResult`, `HandleUserSwitchbackDecision`, `nextProbeFromRateLimitHints`,
  `normalizeFallbackChain`, `NewManager`);
* `pkg/agent` (`AgentLoop.runLLMIteration`, `runAgentLoop`, and the execution-plan
  helpers `buildExecutionPlanBullets`, `summarizeToolCallForPlan`,
  `summarizeCommandForPlan`, `shortenPlanPath`).

Modelling conventions:
* Go `time.Time` is an `Int` of epoch seconds; the zero `time.Time` is `timeZero`
  (its Unix representation), `Before`/`After` are `<`/`>`, `Add` is `+`
  (all durations used by the code are whole minutes or seconds).
* Go `int`/`int64` are `Int`; wrapping never occurs in the router arithmetic
  (counters and epochs only ever grow by one).
* HTTP-date/RFC3339 parsing (`httpDateOrRFC3339`) is an external stdlib facility;
  it is threaded through the definitions as an explicit parameter
  `parseDate : String → Option Int`.
* Effects that are pure sinks in the source (logging, usage records, bus
  publishes, file persistence of the state record) do not influence any claimed
  observable and are not represented; `persistLocked` writes `m.fs` unchanged.
-/

namespace Picoclaw

/-! ## Go primitives -/

/-- Unix representation of the zero `time.Time` (January 1, year 1 UTC). -/
def timeZero : Int := -62135596800

/-- `maxInt` from `pkg/agent/failover`. -/
def goMaxInt (a b : Int) : Int := if a > b then a else b

/-- Minutes to seconds (`time.Duration(n) * time.Minute` added to an epoch-seconds clock). -/
def minutesToSec (n : Int) : Int := 60 * n

/-- `strings.TrimSpace` (whitespace per `Char.isWhitespace`; the values the
code trims are ASCII). Implemented over the character list so that it
evaluates by kernel reduction. -/
def goTrimSpace (s : String) : String :=
  ⟨((s.toList.dropWhile Char.isWhitespace).reverse.dropWhile Char.isWhitespace).reverse⟩

/-- ASCII lower-casing of one character. -/
def charLower (c : Char) : Char :=
  if 'A' ≤ c ∧ c ≤ 'Z' then Char.ofNat (c.toNat + 32) else c

/-- `strings.ToLower` (ASCII folding; all vocabulary compared by the code is ASCII). -/
def goToLower (s : String) : String := ⟨s.toList.map charLower⟩

/-- `strings.EqualFold` (ASCII folding; the code only folds header values). -/
def goEqualFold (s t : String) : Bool := goToLower s == goToLower t

/-- Digit list to natural number. -/
def digitsToNat (ds : List Char) : Nat :=
  ds.foldl (fun a c => a * 10 + (c.toNat - 48)) 0

/-- `strconv.Atoi`: optional single sign, one or more ASCII digits, 64-bit range. -/
def goAtoi (s : String) : Option Int :=
  let cs := s.toList
  let signed : Int × List Char :=
    match cs with
    | '+' :: rest => (1, rest)
    | '-' :: rest => (-1, rest)
    | _ => (1, cs)
  let ds := signed.2
  if ds = [] ∨ ¬ ds.all Char.isDigit then none
  else
    let v : Int := signed.1 * (digitsToNat ds : Int)
    if v < -(2 ^ 63) ∨ v > 2 ^ 63 - 1 then none else some v

/-! ## Data model: `state.FailoverState`, `providers.RateLimitError`, config

`state.FailoverState` and `providers.RateLimitError` are declared outside the
provided sources; their fields are reconstructed from every use in
`pkg/agent/failover` and from the spec's RouteState / backend-error
descriptions (§3, §6). -/

/-- The typed rate-limit error. Fields are the ones read by the failover code;
`message` stands for the rendered `Error()` text (its content is never
interpreted, only stored). -/
structure RateLimitErr where
  message : String
  statusCode : Int
  retryAfter : String
  rateLimitRequestsReset : String
  rateLimitTokensReset : String
deriving Repr, DecidableEq

/-- An error returned by a backend `Chat` call: either the typed rate-limit
error or any other error (carrying its `Error()` text). -/
inductive LLMError where
  | rateLimit (rl : RateLimitErr)
  | other (msg : String)
deriving Repr, DecidableEq

/-- `err.Error()` for a possibly-nil error value. -/
def errString : Option LLMError → String
  | none => ""
  | some (.rateLimit rl) => rl.message
  | some (.other s) => s

/-- The persisted router record (`state.FailoverState`). -/
structure FailoverState where
  mode : String
  primaryModel : String
  activeModel : String
  fallbackIndex : Int
  degradedAt : Int
  holdUntil : Int
  nextProbeAt : Int
  consecutiveProbeSuccesses : Int
  switchEpoch : Int
  lastRateLimitError : String
  lastSwitchReason : String
  lastSwitchbackPromptAt : Int
  lastSwitchbackProbe : String
  lastProbeAt : Int
deriving Repr, DecidableEq

/-- `config.AgentFailover` (only fields read by the router). -/
structure FailoverCfg where
  enabled : Bool
  holdMinutes : Int
  probeIntervalMinutes : Int
  probeSuccessThreshold : Int
  probeFailureBackoffMinutes : Int
  switchbackRequiresApproval : Bool
  switchbackPromptCooldownMins : Int
deriving Repr, DecidableEq

/-- `failover.Manager` (the provider handle cache is external and omitted;
`ResolveRoute`'s only failure is constructing such a handle). -/
structure Manager where
  cfg : FailoverCfg
  primary : String
  fallbacks : List String
  fs : FailoverState
deriving Repr, DecidableEq

/-- Mode constants from `pkg/agent/failover`. -/
def modeNormal : String := "normal"

def modeDegraded : String := "degraded"

def modeAwaitingUserSwitchbk : String := "awaiting_user_switchback"

/-- `SwitchEvent`. -/
structure SwitchEvent where
  fromModel : String
  toModel : String
  reason : String
  switched : Bool
deriving Repr, DecidableEq

/-- `ProbeOutcome`. -/
structure ProbeOutcome where
  success : Bool
  becameHealthy : Bool
  promptText : String
  nextProbeAt : Int
deriving Repr, DecidableEq

/-- `DecisionOutcome`. -/
structure DecisionOutcome where
  handled : Bool
  reply : String
  changed : Bool
deriving Repr, DecidableEq

/-- `Route` as returned by `ResolveRoute` (minus the provider handle). -/
structure RouteInfo where
  model : String
  isPrimary : Bool
  mode : String
  switchEpoch : Int
deriving Repr, DecidableEq

/-! ## Router construction -/

/-- Loop body of `normalizeFallbackChain`: the `seen` set always equals the
set of collected entries, so membership is checked against the result. -/
def normStep (primary : String) (result : List String) (model : String) : List String :=
  let m := goTrimSpace model
  if m = "" ∨ m = primary ∨ m ∈ result then result else result ++ [m]

/-- `normalizeFallbackChain`: trims entries, drops empties, the primary and
duplicates, falling back to the single legacy entry when the list is empty. -/
def normalizeFallbackChain (primary : String) (chain : List String) (single : String) : List String :=
  let base := if chain = [] ∧ goTrimSpace single ≠ "" then [single] else chain
  base.foldl (normStep primary) []

/-- The state `NewManager` produces from a fresh (zero-valued) persisted record:
mode defaults to normal, primary/active default to the configured primary, and
the zero fallback index is rewritten to -1 ("on primary"). -/
def initFailoverState (primary : String) : FailoverState where
  mode := modeNormal
  primaryModel := primary
  activeModel := primary
  fallbackIndex := -1
  degradedAt := timeZero
  holdUntil := timeZero
  nextProbeAt := timeZero
  consecutiveProbeSuccesses := 0
  switchEpoch := 0
  lastRateLimitError := ""
  lastSwitchReason := ""
  lastSwitchbackPromptAt := timeZero
  lastSwitchbackProbe := ""
  lastProbeAt := timeZero

/-- `NewManager` starting from a fresh persisted record. -/
def mkManager (cfg : FailoverCfg) (primary : String) (chainRaw : List String)
    (single : String) : Manager where
  cfg := cfg
  primary := primary
  fallbacks := normalizeFallbackChain primary chainRaw single
  fs := initFailoverState primary

/-! ## RateSignal parsing -/

/-- The latest element of a candidate list (the code sorts ascending by
`Before` and takes the last element, i.e. a maximum); `timeZero` mirrors the
zero `time.Time` returned for an empty list. -/
def latestTime : List Int → Int
  | [] => timeZero
  | t :: ts => ts.foldl (fun a b => if a < b then b else a) t

/-- One hint field of `nextProbeFromRateLimitHints`: trimmed; a numeric value
is a seconds delta when it case-folds equal to the `RetryAfter` field and an
epoch timestamp otherwise; non-numeric values go through
`httpDateOrRFC3339` (the `parseDate` parameter). -/
def hintCandidate (parseDate : String → Option Int) (now : Int) (retryAfterField : String)
    (raw0 : String) : Option Int :=
  let raw := goTrimSpace raw0
  if raw = "" then none
  else
    match goAtoi raw with
    | some secs =>
        if goEqualFold raw retryAfterField then some (now + secs) else some secs
    | none => parseDate raw

/-- `nextProbeFromRateLimitHints`. -/
def nextProbeFromRateLimitHints (parseDate : String → Option Int) (now : Int)
    (rl : RateLimitErr) : Int :=
  let candidates :=
    [rl.retryAfter, rl.rateLimitRequestsReset, rl.rateLimitTokensReset].filterMap
      (hintCandidate parseDate now rl.retryAfter)
  latestTime candidates

/-! ## Router operations -/

/-- The `holdUntil` computed on a switch (lines 183–189): the configured hold
duration from now, pushed later by any resolved timing hints of a typed
rate-limit error. -/
def rlHoldUntil (parseDate : String → Option Int) (now : Int) (cfg : FailoverCfg)
    (err : Option LLMError) : Int :=
  let holdBase := now + minutesToSec (goMaxInt cfg.holdMinutes 1)
  match err with
  | some (.rateLimit rl) =>
      let hinted := nextProbeFromRateLimitHints parseDate now rl
      if hinted > holdBase then hinted else holdBase
  | _ => holdBase

/-- `Manager.OnLLMRateLimited`. -/
def OnLLMRateLimited (parseDate : String → Option Int) (now : Int) (m : Manager)
    (model : String) (err : Option LLMError) : SwitchEvent × Manager :=
  if ¬ m.cfg.enabled then (⟨"", "", "", false⟩, m)
  else
    let fs0 := { m.fs with lastRateLimitError := errString err }
    let fromM :=
      if m.fs.activeModel ≠ "" then m.fs.activeModel
      else if model ≠ "" then model
      else m.primary
    if m.fallbacks = [] then
      (⟨fromM, fromM, "no_fallback_configured", false⟩,
        { m with fs := { fs0 with lastSwitchReason := "rate_limited_no_fallback" } })
    else
      let holdUntil := rlHoldUntil parseDate now m.cfg err
      let step? : Option (Int × String) :=
        if fromM = m.primary then some (0, m.fallbacks.headD "")
        else
          let next0 := m.fs.fallbackIndex + 1
          let next := if next0 < 0 then 0 else next0
          if next ≥ (m.fallbacks.length : Int) then none
          else some (next, m.fallbacks.getD next.toNat "")
      match step? with
      | none =>
          (⟨fromM, fromM, "fallback_exhausted", false⟩,
            { m with fs := { fs0 with lastSwitchReason := "rate_limited_fallback_exhausted" } })
      | some (idx, toM) =>
          (⟨fromM, toM, "rate_limited", true⟩,
            { m with fs := { fs0 with
                mode := modeDegraded
                activeModel := toM
                primaryModel := m.primary
                fallbackIndex := idx
                degradedAt := now
                holdUntil := holdUntil
                nextProbeAt := holdUntil
                consecutiveProbeSuccesses := 0
                lastSwitchReason := "rate_limited"
                switchEpoch := m.fs.switchEpoch + 1 } })

/-- `Manager.OnLLMSuccess`. -/
def OnLLMSuccess (m : Manager) (model : String) : Manager :=
  if ¬ m.cfg.enabled then m
  else if m.fs.activeModel = "" then { m with fs := { m.fs with activeModel := model } }
  else m

/-- `Manager.ShouldProbe`. -/
def ShouldProbe (now : Int) (m : Manager) : Bool :=
  if ¬ m.cfg.enabled then false
  else if m.fs.activeModel = "" ∨ m.fs.activeModel = m.primary then false
  else if now < m.fs.holdUntil then false
  else decide (m.fs.nextProbeAt = timeZero) || ! decide (now < m.fs.nextProbeAt)

/-- `Manager.ResolveRoute` (always succeeds in the model; the only failure in
the source is constructing the provider handle, an external effect). -/
def ResolveRoute (m : Manager) : RouteInfo where
  model := if m.fs.activeModel = "" then m.primary else m.fs.activeModel
  isPrimary := (if m.fs.activeModel = "" then m.primary else m.fs.activeModel) == m.primary
  mode := m.fs.mode
  switchEpoch := m.fs.switchEpoch

/-- Decimal digits of a natural number (fuel-based so it kernel-reduces). -/
def natDigitsAux : Nat → Nat → List Char
  | 0, _ => []
  | fuel + 1, n =>
      if n = 0 then [] else natDigitsAux fuel (n / 10) ++ [Char.ofNat (48 + n % 10)]

/-- Decimal rendering of a natural number. -/
def natToString (n : Nat) : String :=
  if n = 0 then "0" else ⟨natDigitsAux (n + 1) n⟩

/-- Decimal rendering of an integer (`%d`). -/
def intToString (i : Int) : String :=
  if i < 0 then "-" ++ natToString (-i).toNat else natToString i.toNat

/-- `time.Format(time.RFC3339)`, abstracted: the rendered timestamp string is
stored but never interpreted by the code, so any injective rendering works. -/
def rfc3339String (t : Int) : String := intToString t

/-- The `LastSwitchbackProbe` status line built in `recordProbeResult`. -/
def probeStatusLine (count threshold now : Int) : String :=
  intToString count ++ "/" ++ intToString threshold ++ " successful probes as of " ++
    rfc3339String now

/-- `Manager.buildSwitchbackPromptLocked`. -/
def buildSwitchbackPrompt (primary probeLine active : String) : String :=
  "Primary model " ++ primary ++ " looks healthy (" ++ probeLine ++
    "). Currently using fallback " ++ active ++
    ". Reply 'yes' to switch back to primary or 'no' to stay on fallback."

/-- `Manager.recordProbeResult`. -/
def recordProbeResult (parseDate : String → Option Int) (now : Int) (m : Manager)
    (success : Bool) (err : Option LLMError) : ProbeOutcome × Manager :=
  let interval := minutesToSec (goMaxInt m.cfg.probeIntervalMinutes 1)
  let backoff := minutesToSec (goMaxInt m.cfg.probeFailureBackoffMinutes 1)
  let hold := minutesToSec (goMaxInt m.cfg.holdMinutes 1)
  let threshold := goMaxInt m.cfg.probeSuccessThreshold 1
  let fs1 := { m.fs with lastProbeAt := now }
  if success then
    let cnt := fs1.consecutiveProbeSuccesses + 1
    let fs2 := { fs1 with
      consecutiveProbeSuccesses := cnt
      lastSwitchbackProbe := probeStatusLine cnt threshold now
      nextProbeAt := now + interval }
    let reached := cnt ≥ threshold
    let fs3 := if reached then { fs2 with mode := modeAwaitingUserSwitchbk } else fs2
    let prompt :=
      if reached ∧ m.cfg.switchbackRequiresApproval then
        buildSwitchbackPrompt m.primary fs3.lastSwitchbackProbe fs3.activeModel
      else ""
    (⟨true, reached, prompt, fs3.nextProbeAt⟩, { m with fs := fs3 })
  else
    let fs2 := { fs1 with
      consecutiveProbeSuccesses := 0
      mode := modeDegraded
      lastSwitchbackProbe := ""
      nextProbeAt := now + backoff }
    match err with
    | some (.rateLimit rl) =>
        let base := now + hold
        let hinted := nextProbeFromRateLimitHints parseDate now rl
        let next := if hinted > base then hinted else base
        let fs3 := { fs2 with holdUntil := next, nextProbeAt := next }
        (⟨false, false, "", fs3.nextProbeAt⟩, { m with fs := fs3 })
    | _ => (⟨false, false, "", fs2.nextProbeAt⟩, { m with fs := fs2 })

/-- `Manager.HandleUserSwitchbackDecision`. -/
def HandleUserSwitchbackDecision (now : Int) (m : Manager) (text : String) :
    DecisionOutcome × Manager :=
  if ¬ m.cfg.enabled then (⟨false, "", false⟩, m)
  else
    let normalized := goToLower (goTrimSpace text)
    let isYes := normalized = "yes" ∨ normalized = "y" ∨ normalized = "switch" ∨
      normalized = "switch back"
    let isNo := normalized = "no" ∨ normalized = "n" ∨ normalized = "stay" ∨
      normalized = "stay fallback"
    if ¬ isYes ∧ ¬ isNo then (⟨false, "", false⟩, m)
    else if m.fs.mode ≠ modeAwaitingUserSwitchbk then (⟨false, "", false⟩, m)
    else if isYes then
      let oldActive := m.fs.activeModel
      (⟨true, "Switched back to primary model " ++ m.primary ++ " from " ++ oldActive ++ ".",
          true⟩,
        { m with fs := { m.fs with
            mode := modeNormal
            activeModel := m.primary
            fallbackIndex := -1
            consecutiveProbeSuccesses := 0
            lastSwitchReason := "manual_switchback_approved"
            lastSwitchbackPromptAt := timeZero
            lastSwitchbackProbe := ""
            switchEpoch := m.fs.switchEpoch + 1 } })
    else
      let cooldown := minutesToSec (goMaxInt m.cfg.switchbackPromptCooldownMins 1)
      (⟨true, "Staying on fallback model " ++ m.fs.activeModel ++
          ". I will remind you again later if primary stays healthy.", false⟩,
        { m with fs := { m.fs with
            lastSwitchReason := "manual_switchback_declined"
            lastSwitchbackPromptAt := now - cooldown + 1 } })

/-! ## Execution-plan helpers (`pkg/agent/plan.go`) -/

/-- A tool call as carried in a backend response (`providers.ToolCall`).
`arguments` models the `map[string]interface{}` restricted to string values;
a missing key and a non-string value both read back as `""` through the
`, _ :=` type assertions, so only string entries are represented. -/
structure ToolCall where
  id : String
  name : String
  functionName : Option String
  arguments : List (String × String)
deriving Repr, DecidableEq

/-- `tc.Arguments[key].(string)` with the ignored-ok assertion. -/
def argString (args : List (String × String)) (key : String) : String :=
  match args.lookup key with
  | some v => v
  | none => ""

/-- The tool-call name with the `tc.Function.Name` fallback used in
`plan.go` and in the tool-execution loop. -/
def toolCallName (tc : ToolCall) : String :=
  let n := goTrimSpace tc.name
  if n = "" then
    match tc.functionName with
    | some f => goTrimSpace f
    | none => ""
  else n

/-- Accumulator loop for `strings.Fields`: split around whitespace runs. -/
def fieldsAux : List Char → List Char → List String
  | [], cur => if cur = [] then [] else [⟨cur.reverse⟩]
  | c :: cs, cur =>
      if c.isWhitespace then
        if cur = [] then fieldsAux cs []
        else String.mk cur.reverse :: fieldsAux cs []
      else fieldsAux cs (c :: cur)

/-- `strings.Fields`. -/
def goFields (s : String) : List String := fieldsAux s.toList []

/-- Index (in characters) of the first occurrence of `need` in `hay`, or none.
The segment strings searched by the code start with an ASCII space, so byte
and character indices of an occurrence coincide on UTF-8 input. -/
def segIndexAux : List Char → List Char → Nat → Option Nat
  | [], need, i => if need = [] then some i else none
  | c :: cs, need, i =>
      if need.isPrefixOf (c :: cs) then some i
      else segIndexAux cs need (i + 1)

/-- `strings.Index` (-1 when absent). -/
def goStrIndex (s seg : String) : Int :=
  match segIndexAux s.toList seg.toList 0 with
  | some i => (i : Int)
  | none => -1

/-- The segment cut at the top of `summarizeCommandForPlan`: the command is
truncated before the first of `" && "`, `" | "`, `" ; "` found at a positive
index (first matching segment in list order wins). -/
def cutSegments (cmd : String) : String :=
  match [" && ", " | ", " ; "].find? (fun seg => goStrIndex cmd seg > 0) with
  | some seg => ⟨cmd.toList.take (goStrIndex cmd seg).toNat⟩
  | none => cmd

/-- Modelled from the spec: `utils.Truncate` is declared outside the provided
sources (only call sites appear); modelled as a plain character-count cap.
No claim depends on its exact behavior. -/
def goTruncate (s : String) (n : Nat) : String :=
  if s.length ≤ n then s else String.mk (s.toList.take n) ++ "..."

/-- `filepath.Base` (Unix rules). -/
def goFilepathBase (p : String) : String :=
  if p = "" then "."
  else
    let stripped := (p.toList.reverse.dropWhile (· = '/')).reverse
    if stripped = [] then "/"
    else ⟨(stripped.reverse.takeWhile (· ≠ '/')).reverse⟩

/-- `shortenPlanPath`. -/
def shortenPlanPath (p : String) : String :=
  let clean := goTrimSpace p
  if clean = "" then "target file"
  else
    let base := goFilepathBase clean
    if base = "." ∨ base = "/" then clean else base

/-- `summarizeCommandForPlan`. -/
def summarizeCommandForPlan (cmd0 : String) : String :=
  let cmd := goTrimSpace cmd0
  if cmd = "" then "Run shell command"
  else
    let cmd := cutSegments cmd
    match goFields cmd with
    | [] => "Run shell command"
    | base :: restParts =>
      if base = "ls" ∨ base = "dir" then "Inspect directory contents"
      else if base = "cat" ∨ base = "head" ∨ base = "tail" then "Inspect file contents"
      else if base = "rg" ∨ base = "grep" ∨ base = "find" then
        "Search codebase for relevant entries"
      else if base = "go" then
        match restParts with
        | a :: _ => "Run go " ++ a
        | [] => "Run go command"
      else if base = "git" then
        match restParts with
        | a :: _ => "Run git " ++ a
        | [] => "Run git command"
      else if base = "npm" ∨ base = "pnpm" ∨ base = "yarn" then
        match restParts with
        | a :: _ => "Run " ++ base ++ " " ++ a
        | [] => "Run " ++ base ++ " command"
      else if base = "python" ∨ base = "python3" then "Run Python script"
      else
        "Run command: " ++
          goTruncate (String.intercalate " " ((base :: restParts).take 3)) 48

/-- `summarizeToolCallForPlan`. -/
def summarizeToolCallForPlan (tc : ToolCall) : String :=
  let name := toolCallName tc
  if name = "" then "Execute required operation"
  else if name = "exec" then summarizeCommandForPlan (argString tc.arguments "command")
  else if name = "read_file" then
    let p := argString tc.arguments "path"
    if p ≠ "" then "Read " ++ shortenPlanPath p else "Read required files"
  else if name = "write_file" then
    let p := argString tc.arguments "path"
    if p ≠ "" then "Write " ++ shortenPlanPath p else "Write updated files"
  else if name = "list_dir" then
    let p := argString tc.arguments "path"
    if p ≠ "" then "List " ++ shortenPlanPath p else "List directory contents"
  else if name = "web_search" then "Search the web for required context"
  else if name = "web_fetch" then "Fetch and inspect referenced content"
  else if name = "spawn" ∨ name = "subagent" then "Delegate a focused subtask"
  else "Run " ++ name

/-- Loop body of `buildExecutionPlanBullets` (the `seen` set always equals the
set of bullets collected so far, so membership is checked on the bullets). -/
def planStep (bullets : List String) (tc : ToolCall) : List String :=
  let step := summarizeToolCallForPlan tc
  if step = "" ∨ step ∈ bullets then bullets else bullets ++ [step]

/-- `buildExecutionPlanBullets`: one summary phrase per call, empty phrases
skipped, later duplicate phrases dropped. -/
def buildExecutionPlanBullets (toolCalls : List ToolCall) : List String :=
  toolCalls.foldl planStep []

/-! ## Turn orchestrator (`AgentLoop.runLLMIteration` / `runAgentLoop`) -/

/-- A message of the exchange (`providers.Message`); assistant messages carry
their tool calls (the source serializes arguments to JSON inside the stored
message, which is kept in structured form here). -/
structure Msg where
  role : String
  content : String
  toolCallId : String
  toolCalls : List ToolCall
deriving Repr, DecidableEq

/-- A backend `Chat` response (fields the loop branches on). -/
structure ChatResponse where
  content : String
  toolCalls : List ToolCall
deriving Repr, DecidableEq

/-- `tools.ToolResult` (fields read by the loop). `err` carries the rendered
`Error()` text when non-nil. -/
structure ToolResult where
  forLLM : String
  forUser : String
  silent : Bool
  err : Option String
deriving Repr, DecidableEq

/-- One backend call as issued: routed model, messages and tool definitions. -/
structure ChatCall where
  model : String
  msgs : List Msg
  defs : List String
deriving Repr, DecidableEq

/-- `executionPlanState`. `allowed` is the key set of the `Allowed` map. -/
structure PlanState where
  announced : Bool
  bullets : List String
  allowed : List String
deriving Repr, DecidableEq

/-- `executionPlanState.absorbToolCalls`. -/
def planAbsorb (ps : PlanState) (calls : List ToolCall) : PlanState :=
  calls.foldl
    (fun ps tc =>
      let name := toolCallName tc
      if name = "" then ps
      else if name ∈ ps.allowed then ps
      else { ps with allowed := ps.allowed ++ [name] })
    ps

/-- Static loop configuration: `al.maxIterations`, `al.model`,
`al.tools.ToProviderDefs()` (opaque), the deviation-step cap (the constant
`maxPlanBullets`, declared outside the provided sources, hence a parameter)
and `opts.DefaultResponse`. -/
structure LoopCfg where
  maxIterations : Nat
  defaultModel : String
  toolDefs : List String
  maxPlanBullets : Nat
  defaultResponse : String

/-- External collaborators of one turn: the backend (indexed by a global call
counter so that each call's outcome is independent), the wall clock observed
when a rate-limit error is handled, the tool-execution collaborator (indexed
by a tool-call counter) and the date parser. -/
structure LoopEnv where
  chat : Nat → String → List Msg → List String → Except LLMError ChatResponse
  clock : Nat → Int
  execTool : Nat → ToolCall → ToolResult
  parseDate : String → Option Int

/-- Outcome of the call-with-failover phase of one iteration. -/
inductive PhaseResult where
  | ok (resp : ChatResponse) (model : String)
  | fail (e : LLMError)
deriving Repr, DecidableEq

/-- `if al.failoverMgr != nil && al.failoverMgr.Enabled() { al.failoverMgr.OnLLMSuccess(activeModel) }`. -/
def applySuccess (mgr : Option Manager) (model : String) : Option Manager :=
  match mgr with
  | some m => if m.cfg.enabled then some (OnLLMSuccess m model) else some m
  | none => none

/-- The model a loop iteration calls: the routed active model when a failover
manager is present and enabled, the static default model otherwise. -/
def routedModel (cfg : LoopCfg) : Option Manager → String
  | some m => if m.cfg.enabled then (ResolveRoute m).model else cfg.defaultModel
  | none => cfg.defaultModel

/-- Lines 780–868 of the loop body: resolve the route, issue the backend
call, and on a typed rate-limit error consult the router — if it switched,
re-resolve and retry the same call once; any error remaining aborts. -/
def llmCallPhase (env : LoopEnv) (cfg : LoopCfg) (mgr : Option Manager) (callIdx : Nat)
    (msgs : List Msg) : Option Manager × List ChatCall × Nat × PhaseResult :=
  let activeModel := routedModel cfg mgr
  let c1 : ChatCall := ⟨activeModel, msgs, cfg.toolDefs⟩
  match env.chat callIdx activeModel msgs cfg.toolDefs with
  | .ok resp => (applySuccess mgr activeModel, [c1], callIdx + 1, .ok resp activeModel)
  | .error e =>
      match mgr, e with
      | some m, .rateLimit rl =>
          if m.cfg.enabled then
            let evm := OnLLMRateLimited env.parseDate (env.clock callIdx) m activeModel
              (some (.rateLimit rl))
            if evm.1.switched then
              let retryModel := (ResolveRoute evm.2).model
              let c2 : ChatCall := ⟨retryModel, msgs, cfg.toolDefs⟩
              match env.chat (callIdx + 1) retryModel msgs cfg.toolDefs with
              | .ok resp =>
                  (applySuccess (some evm.2) retryModel, [c1, c2], callIdx + 2,
                    .ok resp retryModel)
              | .error e2 => (some evm.2, [c1, c2], callIdx + 2, .fail e2)
            else (some evm.2, [c1], callIdx + 1, .fail e)
          else (mgr, [c1], callIdx + 1, .fail e)
      | _, _ => (mgr, [c1], callIdx + 1, .fail e)

/-- Lines 996–1093: execute the batch sequentially; out-of-plan names append
one deviation step (bounded by the bullet cap) and become allowed; each result
is appended as a tool message. -/
def execToolCalls (env : LoopEnv) (cfg : LoopCfg) (calls : List ToolCall) (ps : PlanState)
    (msgs : List Msg) (toolIdx : Nat) : PlanState × List Msg × Nat :=
  calls.foldl
    (fun (acc : PlanState × List Msg × Nat) tc =>
      let ps := acc.1
      let msgs := acc.2.1
      let tIdx := acc.2.2
      let tcName := toolCallName tc
      let ps :=
        if ps.announced ∧ tcName ≠ "" ∧ tcName ∉ ps.allowed then
          let updateStep := summarizeToolCallForPlan tc
          let bullets :=
            if ps.bullets.length < cfg.maxPlanBullets then ps.bullets ++ [updateStep]
            else ps.bullets
          { ps with bullets := bullets, allowed := ps.allowed ++ [tcName] }
        else ps
      let r := env.execTool tIdx tc
      let contentForLLM :=
        if r.forLLM = "" ∧ r.err ≠ none then r.err.getD "" else r.forLLM
      (ps, msgs ++ [⟨"tool", contentForLLM, tc.id, []⟩], tIdx + 1))
    (ps, msgs, toolIdx)

/-- Result of `runLLMIteration`: final content, iteration count, error if the
turn aborted, plus the router, transcript, plan state and backend-call trace. -/
structure LoopResult where
  content : String
  iterations : Nat
  mgr : Option Manager
  err : Option LLMError
  trace : List ChatCall
  msgs : List Msg
  plan : PlanState
deriving Repr

/-- The `for iteration < al.maxIterations` loop of `runLLMIteration`,
recursing on remaining iterations (`fuel = maxIterations - iteration`). -/
def runIterAux (env : LoopEnv) (cfg : LoopCfg) :
    Nat → Nat → Option Manager → List Msg → PlanState → Nat → Nat → List ChatCall →
      LoopResult
  | 0, iteration, mgr, msgs, ps, _, _, trace =>
      ⟨"", iteration, mgr, none, trace, msgs, ps⟩
  | fuel + 1, iteration, mgr, msgs, ps, callIdx, toolIdx, trace =>
      let iter := iteration + 1
      let (mgr', calls, callIdx', pr) := llmCallPhase env cfg mgr callIdx msgs
      match pr with
      | .fail e => ⟨"", iter, mgr', some e, trace ++ calls, msgs, ps⟩
      | .ok resp _model =>
          if resp.toolCalls = [] then
            ⟨resp.content, iter, mgr', none, trace ++ calls, msgs, ps⟩
          else
            let ps1 :=
              if ¬ ps.announced then
                let psA := { ps with bullets := buildExecutionPlanBullets resp.toolCalls }
                let psB := planAbsorb psA resp.toolCalls
                { psB with announced := true }
              else ps
            let msgs1 := msgs ++ [⟨"assistant", resp.content, "", resp.toolCalls⟩]
            let r := execToolCalls env cfg resp.toolCalls ps1 msgs1 toolIdx
            runIterAux env cfg fuel iter mgr' r.2.1 r.1 callIdx' r.2.2 (trace ++ calls)

/-- `AgentLoop.runLLMIteration`. -/
def runLLMIteration (env : LoopEnv) (cfg : LoopCfg) (mgr : Option Manager)
    (msgs : List Msg) : LoopResult :=
  runIterAux env cfg cfg.maxIterations 0 mgr msgs ⟨false, [], []⟩ 0 0 []

/-- Steps 4–5 of `runAgentLoop`: propagate a loop error; otherwise substitute
the configured default for an empty final content. -/
def runTurn (env : LoopEnv) (cfg : LoopCfg) (mgr : Option Manager) (msgs : List Msg) :
    Except LLMError String :=
  let r := runLLMIteration env cfg mgr msgs
  match r.err with
  | some e => .error e
  | none => .ok (if r.content = "" then cfg.defaultResponse else r.content)

/-! ## Derived notions used by the statements -/

/-- The router state after `k` consecutive `OnLLMRateLimited` calls, the calls'
clock readings, reported models and error values being arbitrary sequences. -/
def rlStateAfter (pd : String → Option Int) (nows : Nat → Int) (models : Nat → String)
    (errs : Nat → Option LLMError) (m0 : Manager) : Nat → Manager
  | 0 => m0
  | k + 1 =>
      (OnLLMRateLimited pd (nows k) (rlStateAfter pd nows models errs m0 k) (models k)
        (errs k)).2

/-- The switch event reported by the `(k+1)`-th consecutive `OnLLMRateLimited` call. -/
def rlEventAt (pd : String → Option Int) (nows : Nat → Int) (models : Nat → String)
    (errs : Nat → Option LLMError) (m0 : Manager) (k : Nat) : SwitchEvent :=
  (OnLLMRateLimited pd (nows k) (rlStateAfter pd nows models errs m0 k) (models k) (errs k)).1

/-- One invocation of a state-mutating router operation, with the wall-clock
reading and arguments it observes. -/
inductive ROp where
  | rateLimited (now : Int) (model : String) (err : Option LLMError)
  | llmSuccess (model : String)
  | probe (now : Int) (success : Bool) (err : Option LLMError)
  | decision (now : Int) (text : String)

/-- Apply one router operation to the state. -/
def applyOp (pd : String → Option Int) (m : Manager) : ROp → Manager
  | .rateLimited now model err => (OnLLMRateLimited pd now m model err).2
  | .llmSuccess model => OnLLMSuccess m model
  | .probe now success err => (recordProbeResult pd now m success err).2
  | .decision now text => (HandleUserSwitchbackDecision now m text).2

/-- Whether an operation is a failed probe. -/
def opProbeFailure : ROp → Bool
  | .probe _ false _ => true
  | _ => false

/-- Run a sequence of router operations. -/
def runOps (pd : String → Option Int) (m : Manager) (ops : List ROp) : Manager :=
  ops.foldl (applyOp pd) m

/-- The mode edges allowed by claim C4: Normal→Degraded,
Degraded→AwaitingSwitchback, AwaitingSwitchback→Normal, and
AwaitingSwitchback→Degraded only on a probe failure. -/
def modeEdgeClaimed (a b : String) (probeFail : Bool) : Prop :=
  (a = modeNormal ∧ b = modeDegraded) ∨
  (a = modeDegraded ∧ b = modeAwaitingUserSwitchbk) ∨
  (a = modeAwaitingUserSwitchbk ∧ b = modeNormal) ∨
  (a = modeAwaitingUserSwitchbk ∧ b = modeDegraded ∧ probeFail = true)

/-- Claim C4 as stated: in every state reachable by router operations from the
initial state, every mode change follows one of the claimed edges, the
AwaitingSwitchback→Degraded edge occurring only on a probe failure. -/
def C4ClaimStatement : Prop :=
  ∀ (pd : String → Option Int) (cfg : FailoverCfg) (primary : String)
    (chainRaw : List String) (single : String) (ops : List ROp) (op : ROp),
    (applyOp pd (runOps pd (mkManager cfg primary chainRaw single) ops) op).fs.mode ≠
        (runOps pd (mkManager cfg primary chainRaw single) ops).fs.mode →
      modeEdgeClaimed (runOps pd (mkManager cfg primary chainRaw single) ops).fs.mode
        (applyOp pd (runOps pd (mkManager cfg primary chainRaw single) ops) op).fs.mode
        (opProbeFailure op)

/-- Order-preserving first-occurrence deduplication (reference definition for
the amended plan-derivation claim), with an explicit already-seen set. -/
def dedupFirstAux (seen : List String) : List String → List String
  | [] => []
  | s :: rest =>
      if s ∈ seen then dedupFirstAux seen rest
      else s :: dedupFirstAux (s :: seen) rest

/-- Order-preserving first-occurrence deduplication. -/
def dedupFirst (l : List String) : List String := dedupFirstAux [] l

/-- The candidate resume times a rate-limit error's hint fields resolve to. -/
def hintCandidateList (pd : String → Option Int) (now : Int) (rl : RateLimitErr) :
    List Int :=
  [rl.retryAfter, rl.rateLimitRequestsReset, rl.rateLimitTokensReset].filterMap
    (hintCandidate pd now rl.retryAfter)

/-! ## General lemmas -/

lemma ne_of_mem_of_not_mem {a b : String} {l : List String} (ha : a ∈ l) (hb : b ∉ l) :
    a ≠ b := fun h => hb (h ▸ ha)

lemma getD_mem_of_lt {l : List String} {n : Nat} (h : n < l.length) :
    l.getD n "" ∈ l := by
  rw [List.getD_eq_getElem?_getD, List.getElem?_eq_getElem h]
  exact List.getElem_mem h

/-- `OnLLMRateLimited` never changes the configuration, primary or chain. -/
lemma onRateLimited_const (pd : String → Option Int) (now : Int) (m : Manager)
    (model : String) (err : Option LLMError) :
    (OnLLMRateLimited pd now m model err).2.cfg = m.cfg ∧
    (OnLLMRateLimited pd now m model err).2.primary = m.primary ∧
    (OnLLMRateLimited pd now m model err).2.fallbacks = m.fallbacks := by
  unfold OnLLMRateLimited
  split
  · exact ⟨rfl, rfl, rfl⟩
  · dsimp only
    split
    · exact ⟨rfl, rfl, rfl⟩
    · split
      · exact ⟨rfl, rfl, rfl⟩
      · exact ⟨rfl, rfl, rfl⟩

/-- Exhausted-chain step: when the active model sits at the end of the chain,
`OnLLMRateLimited` reports `fallback_exhausted` without switching and touches
only the two bookkeeping strings of the persisted record. -/
lemma onRateLimited_exhausted (pd : String → Option Int) (now : Int) (m : Manager)
    (model : String) (err : Option LLMError) (hen : m.cfg.enabled = true)
    (hn : 1 ≤ m.fallbacks.length)
    (hact : m.fs.activeModel = m.fallbacks.getD (m.fallbacks.length - 1) "")
    (hidx : m.fs.fallbackIndex = (m.fallbacks.length : Int) - 1)
    (hnp : m.primary ∉ m.fallbacks) (hne : "" ∉ m.fallbacks) :
    OnLLMRateLimited pd now m model err =
      (⟨m.fs.activeModel, m.fs.activeModel, "fallback_exhausted", false⟩,
        { m with fs := { m.fs with
            lastRateLimitError := errString err
            lastSwitchReason := "rate_limited_fallback_exhausted" } }) := by
  have hlt : m.fallbacks.length - 1 < m.fallbacks.length := by omega
  have hmem : m.fs.activeModel ∈ m.fallbacks := hact ▸ getD_mem_of_lt hlt
  have hane : m.fs.activeModel ≠ "" := ne_of_mem_of_not_mem hmem hne
  have hanp : m.fs.activeModel ≠ m.primary := ne_of_mem_of_not_mem hmem hnp
  have hnil : ¬ m.fallbacks = [] := by
    intro h; rw [h] at hn; simp at hn
  unfold OnLLMRateLimited
  simp only [hen, Bool.not_true, Bool.false_eq_true, if_false, hnil, if_neg, hane,
    ite_not, if_pos, hidx]
  rw [if_neg hanp]
  have e1 : (m.fallbacks.length : Int) - 1 + 1 = (m.fallbacks.length : Int) := by ring
  have e2 : ¬ ((m.fallbacks.length : Int) < 0) := by omega
  rw [e1, if_neg e2, if_pos (le_refl ((m.fallbacks.length : Int)))]

lemma onRateLimited_from_primary (pd : String → Option Int) (now : Int) (m : Manager)
    (model : String) (err : Option LLMError) (hen : m.cfg.enabled = true)
    (hnil : ¬ m.fallbacks = []) (hppne : m.primary ≠ "")
    (hact : m.fs.activeModel = m.primary) :
    OnLLMRateLimited pd now m model err =
      (⟨m.primary, m.fallbacks.headD "", "rate_limited", true⟩,
        { m with fs := { m.fs with
            lastRateLimitError := errString err
            mode := modeDegraded
            activeModel := m.fallbacks.headD ""
            primaryModel := m.primary
            fallbackIndex := 0
            degradedAt := now
            holdUntil := rlHoldUntil pd now m.cfg err
            nextProbeAt := rlHoldUntil pd now m.cfg err
            consecutiveProbeSuccesses := 0
            lastSwitchReason := "rate_limited"
            switchEpoch := m.fs.switchEpoch + 1 } }) := by
  have hane : m.fs.activeModel ≠ "" := by rw [hact]; exact hppne
  unfold OnLLMRateLimited
  simp only [hen, Bool.not_true, Bool.false_eq_true, if_false, hnil, if_neg, hane,
    ite_not, if_pos, hact]
  rw [if_neg hppne, if_pos rfl]

lemma onRateLimited_from_fallback (pd : String → Option Int) (now : Int) (m : Manager)
    (model : String) (err : Option LLMError) (i : Nat) (hen : m.cfg.enabled = true)
    (hi : i + 1 < m.fallbacks.length)
    (hact : m.fs.activeModel = m.fallbacks.getD i "")
    (hidx : m.fs.fallbackIndex = (i : Int))
    (hnp : m.primary ∉ m.fallbacks) (hne : "" ∉ m.fallbacks) :
    OnLLMRateLimited pd now m model err =
      (⟨m.fallbacks.getD i "", m.fallbacks.getD (i + 1) "", "rate_limited", true⟩,
        { m with fs := { m.fs with
            lastRateLimitError := errString err
            mode := modeDegraded
            activeModel := m.fallbacks.getD (i + 1) ""
            primaryModel := m.primary
            fallbackIndex := (i : Int) + 1
            degradedAt := now
            holdUntil := rlHoldUntil pd now m.cfg err
            nextProbeAt := rlHoldUntil pd now m.cfg err
            consecutiveProbeSuccesses := 0
            lastSwitchReason := "rate_limited"
            switchEpoch := m.fs.switchEpoch + 1 } }) := by
  have hlt : i < m.fallbacks.length := by omega
  have hmem : m.fs.activeModel ∈ m.fallbacks := hact ▸ getD_mem_of_lt hlt
  have hane : m.fs.activeModel ≠ "" := ne_of_mem_of_not_mem hmem hne
  have hanp : m.fs.activeModel ≠ m.primary := ne_of_mem_of_not_mem hmem hnp
  have hnil : ¬ m.fallbacks = [] := by
    intro h; rw [h] at hi; simp at hi
  unfold OnLLMRateLimited
  simp only [hen, Bool.not_true, Bool.false_eq_true, if_false, hnil, if_neg, hane,
    ite_not, if_pos, hidx]
  rw [if_neg hanp]
  have e2 : ¬ ((i : Int) + 1 < 0) := by omega
  have e3 : ¬ ((i : Int) + 1 ≥ (m.fallbacks.length : Int)) := by omega
  rw [if_neg e2, if_neg e3]
  have e4 : ((i : Int) + 1).toNat = i + 1 := by omega
  rw [e4, hact]

lemma normStep_fold_inv (primary : String) (l : List String) (acc : List String)
    (hp : primary ∉ acc) (he : "" ∉ acc) :
    primary ∉ l.foldl (normStep primary) acc ∧ "" ∉ l.foldl (normStep primary) acc := by
  induction l generalizing acc with
  | nil => exact ⟨hp, he⟩
  | cons x xs ih =>
      simp only [List.foldl_cons]
      apply ih
      · simp only [normStep]
        split
        · exact hp
        · rename_i hcond
          simp only [List.mem_append, List.mem_singleton]
          rintro (h | h)
          · exact hp h
          · exact hcond (Or.inr (Or.inl h.symm))
      · simp only [normStep]
        split
        · exact he
        · rename_i hcond
          simp only [List.mem_append, List.mem_singleton]
          rintro (h | h)
          · exact he h
          · exact hcond (Or.inl h.symm)

lemma normalize_primary_not_mem (primary : String) (raw : List String) (single : String) :
    primary ∉ normalizeFallbackChain primary raw single := by
  unfold normalizeFallbackChain
  exact (normStep_fold_inv primary _ [] (by simp) (by simp)).1

lemma normalize_empty_not_mem (primary : String) (raw : List String) (single : String) :
    "" ∉ normalizeFallbackChain primary raw single := by
  unfold normalizeFallbackChain
  exact (normStep_fold_inv primary _ [] (by simp) (by simp)).2

lemma headD_eq_getD_zero (l : List String) : l.headD "" = l.getD 0 "" := by
  cases l <;> rfl

lemma rlWalk_inv (pd : String → Option Int) (nows : Nat → Int) (models : Nat → String)
    (errs : Nat → Option LLMError) (m0 : Manager)
    (hen : m0.cfg.enabled = true) (hppne : m0.primary ≠ "")
    (hact0 : m0.fs.activeModel = m0.primary) (hepoch0 : m0.fs.switchEpoch = 0)
    (hnp : m0.primary ∉ m0.fallbacks) (hne : "" ∉ m0.fallbacks) :
    ∀ k, k < m0.fallbacks.length →
      (rlStateAfter pd nows models errs m0 (k + 1)).cfg = m0.cfg ∧
      (rlStateAfter pd nows models errs m0 (k + 1)).primary = m0.primary ∧
      (rlStateAfter pd nows models errs m0 (k + 1)).fallbacks = m0.fallbacks ∧
      (rlStateAfter pd nows models errs m0 (k + 1)).fs.activeModel = m0.fallbacks.getD k "" ∧
      (rlStateAfter pd nows models errs m0 (k + 1)).fs.fallbackIndex = (k : Int) ∧
      (rlStateAfter pd nows models errs m0 (k + 1)).fs.mode = modeDegraded ∧
      (rlStateAfter pd nows models errs m0 (k + 1)).fs.switchEpoch = (k : Int) + 1 := by
  intro k
  induction k with
  | zero =>
      intro hk
      have hnil : ¬ m0.fallbacks = [] := by
        intro h; rw [h] at hk; simp at hk
      show _ ∧ _ ∧ _ ∧ _ ∧ _ ∧ _ ∧ _
      rw [rlStateAfter, rlStateAfter,
        onRateLimited_from_primary pd (nows 0) m0 (models 0) (errs 0) hen hnil hppne hact0]
      refine ⟨rfl, rfl, rfl, ?_, rfl, rfl, ?_⟩
      · exact headD_eq_getD_zero m0.fallbacks
      · simp [hepoch0]
  | succ k ih =>
      intro hk
      have hk' : k < m0.fallbacks.length := by omega
      obtain ⟨hcfg, hprim, hfb, hact, hidx, _hmode, hepoch⟩ := ih hk'
      have henS : (rlStateAfter pd nows models errs m0 (k + 1)).cfg.enabled = true := by
        rw [hcfg]; exact hen
      have hiS : k + 1 < (rlStateAfter pd nows models errs m0 (k + 1)).fallbacks.length := by
        rw [hfb]; exact hk
      have hactS : (rlStateAfter pd nows models errs m0 (k + 1)).fs.activeModel =
          (rlStateAfter pd nows models errs m0 (k + 1)).fallbacks.getD k "" := by
        rw [hfb, hact]
      have hnpS : (rlStateAfter pd nows models errs m0 (k + 1)).primary ∉
          (rlStateAfter pd nows models errs m0 (k + 1)).fallbacks := by
        rw [hfb, hprim]; exact hnp
      have hneS : "" ∉ (rlStateAfter pd nows models errs m0 (k + 1)).fallbacks := by
        rw [hfb]; exact hne
      rw [show k + 1 + 1 = (k + 1) + 1 from rfl, rlStateAfter,
        onRateLimited_from_fallback pd (nows (k + 1)) _ (models (k + 1)) (errs (k + 1)) k
          henS hiS hactS hidx hnpS hneS]
      refine ⟨hcfg, hprim, hfb, ?_, ?_, rfl, ?_⟩
      · rw [hfb]
      · push_cast; ring
      · rw [hepoch]; push_cast; ring

/-- C10: with failover disabled in the configuration, every router operation
is a no-op: `OnLLMRateLimited` reports `switched = false` and leaves the state
untouched, `OnLLMSuccess` changes nothing, `ShouldProbe` is false for every
time value, and `HandleUserSwitchbackDecision` reports not-handled for every
input text, all leaving the manager unchanged. -/
theorem C10_disabled_noop (pd : String → Option Int) (now : Int) (m : Manager)
    (model text : String) (err : Option LLMError) (hdis : m.cfg.enabled = false) :
    OnLLMRateLimited pd now m model err = (⟨"", "", "", false⟩, m) ∧
    OnLLMSuccess m model = m ∧
    ShouldProbe now m = false ∧
    HandleUserSwitchbackDecision now m text = (⟨false, "", false⟩, m) := by
  unfold OnLLMRateLimited OnLLMSuccess ShouldProbe HandleUserSwitchbackDecision
  simp [hdis]

/-- Witness for C10 at a concrete disabled manager. -/
theorem C10_disabled_noop_witness :
    (mkManager ⟨false, 300, 60, 2, 10, true, 60⟩ "M0" ["M1"] "").cfg.enabled = false ∧
    (OnLLMRateLimited (fun _ => none) 7 (mkManager ⟨false, 300, 60, 2, 10, true, 60⟩ "M0" ["M1"] "")
        "M0" none =
      (⟨"", "", "", false⟩, mkManager ⟨false, 300, 60, 2, 10, true, 60⟩ "M0" ["M1"] "") ∧
    OnLLMSuccess (mkManager ⟨false, 300, 60, 2, 10, true, 60⟩ "M0" ["M1"] "") "M0" =
      mkManager ⟨false, 300, 60, 2, 10, true, 60⟩ "M0" ["M1"] "" ∧
    ShouldProbe 7 (mkManager ⟨false, 300, 60, 2, 10, true, 60⟩ "M0" ["M1"] "") = false ∧
    HandleUserSwitchbackDecision 7 (mkManager ⟨false, 300, 60, 2, 10, true, 60⟩ "M0" ["M1"] "")
        "yes" =
      (⟨false, "", false⟩, mkManager ⟨false, 300, 60, 2, 10, true, 60⟩ "M0" ["M1"] "")) :=
  ⟨rfl, C10_disabled_noop (fun _ => none) 7 _ "M0" "yes" none rfl⟩

/-- C1: from the initial router state, with failover enabled and a configured
primary, the `(k+1)`-th consecutive rate-limit call (for `k` below the chain
length) switches from the previous chain position (the primary for `k = 0`)
to chain index `k`, setting mode Degraded, fallback index `k` and switch epoch
`k+1`; and the call after the `N`-th reports `switched = false` with reason
`fallback_exhausted`, leaving the active model unchanged. -/
theorem C1_fallback_chain_walk (pd : String → Option Int) (nows : Nat → Int)
    (models : Nat → String) (errs : Nat → Option LLMError) (cfg : FailoverCfg)
    (primary : String) (chainRaw : List String) (single : String) (k : Nat)
    (hen : cfg.enabled = true) (hppne : primary ≠ "")
    (hk : k < (mkManager cfg primary chainRaw single).fallbacks.length) :
    rlEventAt pd nows models errs (mkManager cfg primary chainRaw single) k =
      ⟨if k = 0 then primary
        else (mkManager cfg primary chainRaw single).fallbacks.getD (k - 1) "",
        (mkManager cfg primary chainRaw single).fallbacks.getD k "", "rate_limited", true⟩ ∧
    (rlStateAfter pd nows models errs (mkManager cfg primary chainRaw single) (k + 1)).fs.mode =
      modeDegraded ∧
    (rlStateAfter pd nows models errs (mkManager cfg primary chainRaw single)
        (k + 1)).fs.activeModel =
      (mkManager cfg primary chainRaw single).fallbacks.getD k "" ∧
    (rlStateAfter pd nows models errs (mkManager cfg primary chainRaw single)
        (k + 1)).fs.fallbackIndex = (k : Int) ∧
    (rlStateAfter pd nows models errs (mkManager cfg primary chainRaw single)
        (k + 1)).fs.switchEpoch = (k : Int) + 1 ∧
    (rlEventAt pd nows models errs (mkManager cfg primary chainRaw single)
        (mkManager cfg primary chainRaw single).fallbacks.length).switched = false ∧
    (rlEventAt pd nows models errs (mkManager cfg primary chainRaw single)
        (mkManager cfg primary chainRaw single).fallbacks.length).reason =
      "fallback_exhausted" ∧
    (rlStateAfter pd nows models errs (mkManager cfg primary chainRaw single)
        ((mkManager cfg primary chainRaw single).fallbacks.length + 1)).fs.activeModel =
      (rlStateAfter pd nows models errs (mkManager cfg primary chainRaw single)
        (mkManager cfg primary chainRaw single).fallbacks.length).fs.activeModel := by
  have hnp := normalize_primary_not_mem primary chainRaw single
  have hne := normalize_empty_not_mem primary chainRaw single
  have walk := rlWalk_inv pd nows models errs (mkManager cfg primary chainRaw single)
    hen hppne rfl rfl hnp hne
  -- the k-th event
  have hev : rlEventAt pd nows models errs (mkManager cfg primary chainRaw single) k =
      ⟨if k = 0 then primary
        else (mkManager cfg primary chainRaw single).fallbacks.getD (k - 1) "",
        (mkManager cfg primary chainRaw single).fallbacks.getD k "", "rate_limited", true⟩ := by
    cases k with
    | zero =>
        have hnil : ¬ (mkManager cfg primary chainRaw single).fallbacks = [] := by
          intro h
          rw [h] at hk
          simp at hk
        unfold rlEventAt
        rw [show rlStateAfter pd nows models errs (mkManager cfg primary chainRaw single) 0 =
            mkManager cfg primary chainRaw single from rfl,
          onRateLimited_from_primary pd (nows 0) _ (models 0) (errs 0) hen hnil hppne rfl]
        rw [if_pos rfl, show (mkManager cfg primary chainRaw single).fallbacks.getD 0 "" =
            (mkManager cfg primary chainRaw single).fallbacks.headD "" from
          (headD_eq_getD_zero _).symm]
        rfl
    | succ j =>
        have hj : j < (mkManager cfg primary chainRaw single).fallbacks.length := by omega
        obtain ⟨hcfg, hprim, hfb, hact, hidx, _hmode, _hepoch⟩ := walk j hj
        unfold rlEventAt
        rw [onRateLimited_from_fallback pd (nows (j + 1)) _ (models (j + 1)) (errs (j + 1)) j
          (by rw [hcfg]; exact hen) (by rw [hfb]; exact hk) (by rw [hfb, hact])
          hidx (by rw [hfb, hprim]; exact hnp) (by rw [hfb]; exact hne)]
        simp [hfb]
  obtain ⟨hcfgK, _hprimK, _hfbK, hactK, _hidxK, hmodeK, hepochK⟩ := walk k hk
  -- exhaustion after N calls
  have hN1 : 1 ≤ (mkManager cfg primary chainRaw single).fallbacks.length := by omega
  obtain ⟨hcfgN, hprimN, hfbN, hactN, hidxN, _hmodeN, _hepochN⟩ :=
    walk ((mkManager cfg primary chainRaw single).fallbacks.length - 1) (by omega)
  have hNsucc : (mkManager cfg primary chainRaw single).fallbacks.length - 1 + 1 =
      (mkManager cfg primary chainRaw single).fallbacks.length := by omega
  rw [hNsucc] at hcfgN hprimN hfbN hactN hidxN
  have hexh := onRateLimited_exhausted pd
    (nows (mkManager cfg primary chainRaw single).fallbacks.length)
    (rlStateAfter pd nows models errs (mkManager cfg primary chainRaw single)
      (mkManager cfg primary chainRaw single).fallbacks.length)
    (models (mkManager cfg primary chainRaw single).fallbacks.length)
    (errs (mkManager cfg primary chainRaw single).fallbacks.length)
    (by rw [hcfgN]; exact hen) (by rw [hfbN]; exact hN1)
    (by rw [hfbN]; exact hactN) (by rw [hfbN, hidxN]; omega)
    (by rw [hfbN, hprimN]; exact hnp) (by rw [hfbN]; exact hne)
  refine ⟨hev, hmodeK, hactK, by assumption, hepochK, ?_, ?_, ?_⟩
  · unfold rlEventAt
    rw [hexh]
  · unfold rlEventAt
    rw [hexh]
  · rw [rlStateAfter, hexh]

/-- Witness for C1: primary `M0`, chain `[M1, M2]`, second switch (`k = 1`). -/
theorem C1_fallback_chain_walk_witness :
    (⟨true, 300, 60, 2, 10, true, 60⟩ : FailoverCfg).enabled = true ∧
    ("M0" : String) ≠ "" ∧
    1 < (mkManager ⟨true, 300, 60, 2, 10, true, 60⟩ "M0" ["M1", "M2"] "").fallbacks.length ∧
    (rlEventAt (fun _ => none) (fun _ => 0) (fun _ => "") (fun _ => none)
        (mkManager ⟨true, 300, 60, 2, 10, true, 60⟩ "M0" ["M1", "M2"] "") 1 =
      ⟨if 1 = 0 then "M0"
        else (mkManager ⟨true, 300, 60, 2, 10, true, 60⟩ "M0" ["M1", "M2"] "").fallbacks.getD
          (1 - 1) "",
        (mkManager ⟨true, 300, 60, 2, 10, true, 60⟩ "M0" ["M1", "M2"] "").fallbacks.getD 1 "",
        "rate_limited", true⟩ ∧
    (rlStateAfter (fun _ => none) (fun _ => 0) (fun _ => "") (fun _ => none)
        (mkManager ⟨true, 300, 60, 2, 10, true, 60⟩ "M0" ["M1", "M2"] "") (1 + 1)).fs.mode =
      modeDegraded ∧
    (rlStateAfter (fun _ => none) (fun _ => 0) (fun _ => "") (fun _ => none)
        (mkManager ⟨true, 300, 60, 2, 10, true, 60⟩ "M0" ["M1", "M2"] "")
        (1 + 1)).fs.activeModel =
      (mkManager ⟨true, 300, 60, 2, 10, true, 60⟩ "M0" ["M1", "M2"] "").fallbacks.getD 1 "" ∧
    (rlStateAfter (fun _ => none) (fun _ => 0) (fun _ => "") (fun _ => none)
        (mkManager ⟨true, 300, 60, 2, 10, true, 60⟩ "M0" ["M1", "M2"] "")
        (1 + 1)).fs.fallbackIndex = ((1 : Nat) : Int) ∧
    (rlStateAfter (fun _ => none) (fun _ => 0) (fun _ => "") (fun _ => none)
        (mkManager ⟨true, 300, 60, 2, 10, true, 60⟩ "M0" ["M1", "M2"] "")
        (1 + 1)).fs.switchEpoch = ((1 : Nat) : Int) + 1 ∧
    (rlEventAt (fun _ => none) (fun _ => 0) (fun _ => "") (fun _ => none)
        (mkManager ⟨true, 300, 60, 2, 10, true, 60⟩ "M0" ["M1", "M2"] "")
        (mkManager ⟨true, 300, 60, 2, 10, true, 60⟩ "M0" ["M1", "M2"] "").fallbacks.length).switched =
      false ∧
    (rlEventAt (fun _ => none) (fun _ => 0) (fun _ => "") (fun _ => none)
        (mkManager ⟨true, 300, 60, 2, 10, true, 60⟩ "M0" ["M1", "M2"] "")
        (mkManager ⟨true, 300, 60, 2, 10, true, 60⟩ "M0" ["M1", "M2"] "").fallbacks.length).reason =
      "fallback_exhausted" ∧
    (rlStateAfter (fun _ => none) (fun _ => 0) (fun _ => "") (fun _ => none)
        (mkManager ⟨true, 300, 60, 2, 10, true, 60⟩ "M0" ["M1", "M2"] "")
        ((mkManager ⟨true, 300, 60, 2, 10, true, 60⟩ "M0" ["M1", "M2"] "").fallbacks.length +
          1)).fs.activeModel =
      (rlStateAfter (fun _ => none) (fun _ => 0) (fun _ => "") (fun _ => none)
        (mkManager ⟨true, 300, 60, 2, 10, true, 60⟩ "M0" ["M1", "M2"] "")
        (mkManager ⟨true, 300, 60, 2, 10, true, 60⟩ "M0" ["M1", "M2"] "").fallbacks.length).fs.activeModel) :=
  ⟨rfl, by decide, by decide,
    C1_fallback_chain_walk (fun _ => none) (fun _ => 0) (fun _ => "") (fun _ => none)
      ⟨true, 300, 60, 2, 10, true, 60⟩ "M0" ["M1", "M2"] "" 1 rfl (by decide) (by decide)⟩

/-- C3 counterexample: with the chain exhausted the call reports
`switched = false`, yet the persisted record does change — `lastSwitchReason`
moves from `rate_limited` to `rate_limited_fallback_exhausted` (and
`lastRateLimitError` is rewritten), refuting "leaves the router state
entirely unchanged". -/
theorem C3_counterexample :
    (rlStateAfter (fun _ => none) (fun _ => 0) (fun _ => "") (fun _ => none)
        (mkManager ⟨true, 300, 60, 2, 10, true, 60⟩ "M0" ["M1", "M2"] "") 2).fs.activeModel =
      "M2" ∧
    (rlStateAfter (fun _ => none) (fun _ => 0) (fun _ => "") (fun _ => none)
        (mkManager ⟨true, 300, 60, 2, 10, true, 60⟩ "M0" ["M1", "M2"] "") 2).fs.lastSwitchReason =
      "rate_limited" ∧
    (OnLLMRateLimited (fun _ => none) 9
        (rlStateAfter (fun _ => none) (fun _ => 0) (fun _ => "") (fun _ => none)
          (mkManager ⟨true, 300, 60, 2, 10, true, 60⟩ "M0" ["M1", "M2"] "") 2)
        "" none).1.switched = false ∧
    (OnLLMRateLimited (fun _ => none) 9
        (rlStateAfter (fun _ => none) (fun _ => 0) (fun _ => "") (fun _ => none)
          (mkManager ⟨true, 300, 60, 2, 10, true, 60⟩ "M0" ["M1", "M2"] "") 2)
        "" none).2.fs.lastSwitchReason = "rate_limited_fallback_exhausted" ∧
    (OnLLMRateLimited (fun _ => none) 9
        (rlStateAfter (fun _ => none) (fun _ => 0) (fun _ => "") (fun _ => none)
          (mkManager ⟨true, 300, 60, 2, 10, true, 60⟩ "M0" ["M1", "M2"] "") 2)
        "" none).2.fs ≠
      (rlStateAfter (fun _ => none) (fun _ => 0) (fun _ => "") (fun _ => none)
        (mkManager ⟨true, 300, 60, 2, 10, true, 60⟩ "M0" ["M1", "M2"] "") 2).fs := by
  decide

/-- C3 (amended): with failover enabled and the active model at the last chain
position, `OnLLMRateLimited` returns `switched = false` with reason
`fallback_exhausted`, and the resulting state agrees with the prior state on
every field of the persisted record except `lastRateLimitError` (rewritten to
the error text) and `lastSwitchReason` (set to
`rate_limited_fallback_exhausted`); in particular mode, activeModel,
fallbackIndex, switchEpoch, holdUntil, nextProbeAt and
consecutiveProbeSuccesses keep their prior values. -/
theorem C3_exhausted_frame (pd : String → Option Int) (now : Int) (m : Manager)
    (model : String) (err : Option LLMError) (hen : m.cfg.enabled = true)
    (hn : 1 ≤ m.fallbacks.length)
    (hact : m.fs.activeModel = m.fallbacks.getD (m.fallbacks.length - 1) "")
    (hidx : m.fs.fallbackIndex = (m.fallbacks.length : Int) - 1)
    (hnp : m.primary ∉ m.fallbacks) (hne : "" ∉ m.fallbacks) :
    OnLLMRateLimited pd now m model err =
      (⟨m.fs.activeModel, m.fs.activeModel, "fallback_exhausted", false⟩,
        { m with fs := { m.fs with
            lastRateLimitError := errString err
            lastSwitchReason := "rate_limited_fallback_exhausted" } }) :=
  onRateLimited_exhausted pd now m model err hen hn hact hidx hnp hne

/-- Witness for the amended C3 at a concrete exhausted state. -/
theorem C3_exhausted_frame_witness :
    ((rlStateAfter (fun _ => none) (fun _ => 0) (fun _ => "") (fun _ => none)
        (mkManager ⟨true, 300, 60, 2, 10, true, 60⟩ "M0" ["M1", "M2"] "") 2).cfg.enabled =
      true ∧
    1 ≤ (rlStateAfter (fun _ => none) (fun _ => 0) (fun _ => "") (fun _ => none)
        (mkManager ⟨true, 300, 60, 2, 10, true, 60⟩ "M0" ["M1", "M2"] "") 2).fallbacks.length) ∧
    OnLLMRateLimited (fun _ => none) 9
        (rlStateAfter (fun _ => none) (fun _ => 0) (fun _ => "") (fun _ => none)
          (mkManager ⟨true, 300, 60, 2, 10, true, 60⟩ "M0" ["M1", "M2"] "") 2) "" none =
      (⟨(rlStateAfter (fun _ => none) (fun _ => 0) (fun _ => "") (fun _ => none)
          (mkManager ⟨true, 300, 60, 2, 10, true, 60⟩ "M0" ["M1", "M2"] "") 2).fs.activeModel,
        (rlStateAfter (fun _ => none) (fun _ => 0) (fun _ => "") (fun _ => none)
          (mkManager ⟨true, 300, 60, 2, 10, true, 60⟩ "M0" ["M1", "M2"] "") 2).fs.activeModel,
        "fallback_exhausted", false⟩,
        { rlStateAfter (fun _ => none) (fun _ => 0) (fun _ => "") (fun _ => none)
            (mkManager ⟨true, 300, 60, 2, 10, true, 60⟩ "M0" ["M1", "M2"] "") 2 with
          fs := { (rlStateAfter (fun _ => none) (fun _ => 0) (fun _ => "") (fun _ => none)
              (mkManager ⟨true, 300, 60, 2, 10, true, 60⟩ "M0" ["M1", "M2"] "") 2).fs with
            lastRateLimitError := errString none
            lastSwitchReason := "rate_limited_fallback_exhausted" } }) :=
  ⟨⟨by decide, by decide⟩,
    C3_exhausted_frame (fun _ => none) 9 _ "" none (by decide) (by decide) (by decide)
      (by decide) (by decide) (by decide)⟩

lemma onRateLimited_mode (pd : String → Option Int) (now : Int) (m : Manager)
    (model : String) (err : Option LLMError) :
    (OnLLMRateLimited pd now m model err).2.fs.mode = modeDegraded ∨
    (OnLLMRateLimited pd now m model err).2.fs.mode = m.fs.mode := by
  unfold OnLLMRateLimited
  split
  · right; rfl
  · dsimp only
    split
    · right; rfl
    · split
      · right; rfl
      · left; rfl

lemma onLLMSuccess_mode (m : Manager) (model : String) :
    (OnLLMSuccess m model).fs.mode = m.fs.mode := by
  unfold OnLLMSuccess
  split
  · rfl
  · split <;> rfl

lemma recordProbe_mode_success (pd : String → Option Int) (now : Int) (m : Manager)
    (err : Option LLMError) :
    (recordProbeResult pd now m true err).2.fs.mode = modeAwaitingUserSwitchbk ∨
    (recordProbeResult pd now m true err).2.fs.mode = m.fs.mode := by
  unfold recordProbeResult
  simp only [if_true]
  split
  · left; rfl
  · right; rfl

lemma recordProbe_mode_failure (pd : String → Option Int) (now : Int) (m : Manager)
    (err : Option LLMError) :
    (recordProbeResult pd now m false err).2.fs.mode = modeDegraded := by
  unfold recordProbeResult
  simp only [Bool.false_eq_true, if_false]
  split <;> rfl

lemma decision_mode (now : Int) (m : Manager) (text : String) :
    (HandleUserSwitchbackDecision now m text).2.fs.mode = m.fs.mode ∨
    (m.fs.mode = modeAwaitingUserSwitchbk ∧
      (HandleUserSwitchbackDecision now m text).2.fs.mode = modeNormal) := by
  unfold HandleUserSwitchbackDecision
  split
  · left; rfl
  · dsimp only
    split
    · left; rfl
    · split
      · left; rfl
      · rename_i hmode
        split
        · right
          constructor
          · by_contra hcon
            exact hmode hcon
          · rfl
        · left; rfl

/-- C4 counterexample: a reachable AwaitingSwitchback state from which a
rate-limit switch (not a probe failure) moves the mode to Degraded, an edge
the claim reserves for probe failures. -/
theorem C4_counterexample : ¬ C4ClaimStatement := by
  intro h
  have h2 := h (fun _ => none) ⟨true, 1, 1, 1, 1, false, 1⟩ "M0" ["M1", "M2"] ""
    [.rateLimited 0 "" none, .probe 10 true none] (.rateLimited 20 "" none) (by decide)
  unfold modeEdgeClaimed at h2
  revert h2
  decide

/-- C4 (amended): mode changes produced by the router operations are exactly:
a rate-limit switch sets Degraded (also from AwaitingSwitchback), a probe
success reaching the threshold sets AwaitingSwitchback, a probe failure sets
Degraded, and an affirmative switchback decision moves AwaitingSwitchback to
Normal; no operation produces any other mode change (in particular
Degraded→Normal never occurs in one step). -/
theorem C4_mode_transitions (pd : String → Option Int) (m : Manager) (op : ROp)
    (hch : (applyOp pd m op).fs.mode ≠ m.fs.mode) :
    (∃ now model err, op = .rateLimited now model err ∧
        (applyOp pd m op).fs.mode = modeDegraded) ∨
    (∃ now err, op = .probe now true err ∧
        (applyOp pd m op).fs.mode = modeAwaitingUserSwitchbk) ∨
    (∃ now err, op = .probe now false err ∧ (applyOp pd m op).fs.mode = modeDegraded) ∨
    (∃ now text, op = .decision now text ∧ m.fs.mode = modeAwaitingUserSwitchbk ∧
        (applyOp pd m op).fs.mode = modeNormal) := by
  cases op with
  | rateLimited now model err =>
      rcases onRateLimited_mode pd now m model err with hmode | hmode
      · exact Or.inl ⟨now, model, err, rfl, hmode⟩
      · exact absurd hmode hch
  | llmSuccess model =>
      exact absurd (onLLMSuccess_mode m model) hch
  | probe now success err =>
      cases success with
      | true =>
          rcases recordProbe_mode_success pd now m err with hmode | hmode
          · exact Or.inr (Or.inl ⟨now, err, rfl, hmode⟩)
          · exact absurd hmode hch
      | false =>
          exact Or.inr (Or.inr (Or.inl ⟨now, err, rfl, recordProbe_mode_failure pd now m err⟩))
  | decision now text =>
      rcases decision_mode now m text with hmode | ⟨hm, hmode⟩
      · exact absurd hmode hch
      · exact Or.inr (Or.inr (Or.inr ⟨now, text, rfl, hm, hmode⟩))

/-- Witness for the amended C4: a concrete rate-limit switch changes the mode
(Normal to Degraded), landing in the first disjunct. -/
theorem C4_mode_transitions_witness :
    (applyOp (fun _ => none) (mkManager ⟨true, 300, 60, 2, 10, true, 60⟩ "M0" ["M1"] "")
        (.rateLimited 0 "" none)).fs.mode ≠
      (mkManager ⟨true, 300, 60, 2, 10, true, 60⟩ "M0" ["M1"] "").fs.mode ∧
    ((∃ now model err, (ROp.rateLimited 0 "" none) = .rateLimited now model err ∧
        (applyOp (fun _ => none) (mkManager ⟨true, 300, 60, 2, 10, true, 60⟩ "M0" ["M1"] "")
          (.rateLimited 0 "" none)).fs.mode = modeDegraded) ∨
    (∃ now err, (ROp.rateLimited 0 "" none) = .probe now true err ∧
        (applyOp (fun _ => none) (mkManager ⟨true, 300, 60, 2, 10, true, 60⟩ "M0" ["M1"] "")
          (.rateLimited 0 "" none)).fs.mode = modeAwaitingUserSwitchbk) ∨
    (∃ now err, (ROp.rateLimited 0 "" none) = .probe now false err ∧
        (applyOp (fun _ => none) (mkManager ⟨true, 300, 60, 2, 10, true, 60⟩ "M0" ["M1"] "")
          (.rateLimited 0 "" none)).fs.mode = modeDegraded) ∨
    (∃ now text, (ROp.rateLimited 0 "" none) = .decision now text ∧
        (mkManager ⟨true, 300, 60, 2, 10, true, 60⟩ "M0" ["M1"] "").fs.mode =
          modeAwaitingUserSwitchbk ∧
        (applyOp (fun _ => none) (mkManager ⟨true, 300, 60, 2, 10, true, 60⟩ "M0" ["M1"] "")
          (.rateLimited 0 "" none)).fs.mode = modeNormal)) :=
  ⟨by decide,
    C4_mode_transitions (fun _ => none) (mkManager ⟨true, 300, 60, 2, 10, true, 60⟩ "M0" ["M1"] "")
      (.rateLimited 0 "" none) (by decide)⟩

lemma onLLMSuccess_const (m : Manager) (model : String) :
    (OnLLMSuccess m model).cfg = m.cfg ∧ (OnLLMSuccess m model).primary = m.primary ∧
    (OnLLMSuccess m model).fallbacks = m.fallbacks := by
  unfold OnLLMSuccess
  split
  · exact ⟨rfl, rfl, rfl⟩
  · split <;> exact ⟨rfl, rfl, rfl⟩

lemma recordProbe_const (pd : String → Option Int) (now : Int) (m : Manager)
    (success : Bool) (err : Option LLMError) :
    (recordProbeResult pd now m success err).2.cfg = m.cfg ∧
    (recordProbeResult pd now m success err).2.primary = m.primary ∧
    (recordProbeResult pd now m success err).2.fallbacks = m.fallbacks := by
  cases success with
  | true =>
      unfold recordProbeResult
      simp only [if_true]
      exact ⟨trivial, trivial, trivial⟩
  | false =>
      unfold recordProbeResult
      simp only [Bool.false_eq_true, if_false]
      split <;> exact ⟨rfl, rfl, rfl⟩

lemma decision_const (now : Int) (m : Manager) (text : String) :
    (HandleUserSwitchbackDecision now m text).2.cfg = m.cfg ∧
    (HandleUserSwitchbackDecision now m text).2.primary = m.primary ∧
    (HandleUserSwitchbackDecision now m text).2.fallbacks = m.fallbacks := by
  unfold HandleUserSwitchbackDecision
  split
  · exact ⟨rfl, rfl, rfl⟩
  · dsimp only
    split
    · exact ⟨rfl, rfl, rfl⟩
    · split
      · exact ⟨rfl, rfl, rfl⟩
      · split <;> exact ⟨rfl, rfl, rfl⟩

/-- No router operation changes the configuration, primary or chain. -/
lemma applyOp_const (pd : String → Option Int) (m : Manager) (op : ROp) :
    (applyOp pd m op).cfg = m.cfg ∧ (applyOp pd m op).primary = m.primary ∧
    (applyOp pd m op).fallbacks = m.fallbacks := by
  cases op with
  | rateLimited now model err => exact onRateLimited_const pd now m model err
  | llmSuccess model => exact onLLMSuccess_const m model
  | probe now success err => exact recordProbe_const pd now m success err
  | decision now text => exact decision_const now m text

lemma onRateLimited_mode_active (pd : String → Option Int) (now : Int) (m : Manager)
    (model : String) (err : Option LLMError) :
    (OnLLMRateLimited pd now m model err).2.fs.mode = modeDegraded ∨
    ((OnLLMRateLimited pd now m model err).2.fs.mode = m.fs.mode ∧
      (OnLLMRateLimited pd now m model err).2.fs.activeModel = m.fs.activeModel) := by
  unfold OnLLMRateLimited
  split
  · right; exact ⟨rfl, rfl⟩
  · dsimp only
    split
    · right; exact ⟨rfl, rfl⟩
    · split
      · right; exact ⟨rfl, rfl⟩
      · left; rfl

lemma onLLMSuccess_active (m : Manager) (model : String) (h : m.fs.activeModel ≠ "") :
    (OnLLMSuccess m model).fs.activeModel = m.fs.activeModel := by
  unfold OnLLMSuccess
  split
  · rfl
  · rfl

lemma recordProbe_active (pd : String → Option Int) (now : Int) (m : Manager)
    (success : Bool) (err : Option LLMError) :
    (recordProbeResult pd now m success err).2.fs.activeModel = m.fs.activeModel := by
  cases success with
  | true =>
      unfold recordProbeResult
      simp only [if_true]
      split <;> rfl
  | false =>
      unfold recordProbeResult
      simp only [Bool.false_eq_true, if_false]
      split <;> rfl

lemma decision_mode_active (now : Int) (m : Manager) (text : String) :
    ((HandleUserSwitchbackDecision now m text).2.fs.mode = m.fs.mode ∧
      (HandleUserSwitchbackDecision now m text).2.fs.activeModel = m.fs.activeModel) ∨
    ((HandleUserSwitchbackDecision now m text).2.fs.mode = modeNormal ∧
      (HandleUserSwitchbackDecision now m text).2.fs.activeModel = m.primary) := by
  unfold HandleUserSwitchbackDecision
  split
  · left; exact ⟨rfl, rfl⟩
  · dsimp only
    split
    · left; exact ⟨rfl, rfl⟩
    · split
      · left; exact ⟨rfl, rfl⟩
      · split
        · right; exact ⟨rfl, rfl⟩
        · left; exact ⟨rfl, rfl⟩

/-- One operation preserves "in Normal mode the active model is the primary"
(for a nonempty primary). -/
lemma applyOp_normal_active (pd : String → Option Int) (m : Manager) (op : ROp)
    (hppne : m.primary ≠ "")
    (hI : m.fs.mode = modeNormal → m.fs.activeModel = m.primary) :
    (applyOp pd m op).fs.mode = modeNormal →
      (applyOp pd m op).fs.activeModel = (applyOp pd m op).primary := by
  intro hmode
  have hprim := (applyOp_const pd m op).2.1
  rw [hprim]
  cases op with
  | rateLimited now model err =>
      rcases onRateLimited_mode_active pd now m model err with hd | ⟨hm, ha⟩
      · rw [show applyOp pd m (.rateLimited now model err) =
            (OnLLMRateLimited pd now m model err).2 from rfl] at hmode
        rw [hd] at hmode
        exact absurd hmode (by decide)
      · have : m.fs.mode = modeNormal := by
          rw [← hm]
          exact hmode
        rw [show applyOp pd m (.rateLimited now model err) =
          (OnLLMRateLimited pd now m model err).2 from rfl, ha]
        exact hI this
  | llmSuccess model =>
      have hm : (OnLLMSuccess m model).fs.mode = m.fs.mode := onLLMSuccess_mode m model
      have hnorm : m.fs.mode = modeNormal := by
        rw [← hm]; exact hmode
      have hne : m.fs.activeModel ≠ "" := by
        rw [hI hnorm]; exact hppne
      rw [show applyOp pd m (.llmSuccess model) = OnLLMSuccess m model from rfl,
        onLLMSuccess_active m model hne]
      exact hI hnorm
  | probe now success err =>
      cases success with
      | true =>
          rcases recordProbe_mode_success pd now m err with hm | hm
          · rw [show applyOp pd m (.probe now true err) =
                (recordProbeResult pd now m true err).2 from rfl] at hmode
            rw [hm] at hmode
            exact absurd hmode (by decide)
          · have hnorm : m.fs.mode = modeNormal := by
              rw [← hm]
              exact hmode
            rw [show applyOp pd m (.probe now true err) =
              (recordProbeResult pd now m true err).2 from rfl,
              recordProbe_active pd now m true err]
            exact hI hnorm
      | false =>
          rw [show applyOp pd m (.probe now false err) =
              (recordProbeResult pd now m false err).2 from rfl] at hmode
          rw [recordProbe_mode_failure pd now m err] at hmode
          exact absurd hmode (by decide)
  | decision now text =>
      rcases decision_mode_active now m text with ⟨hm, ha⟩ | ⟨_, ha⟩
      · have hnorm : m.fs.mode = modeNormal := by
          rw [← hm]
          exact hmode
        rw [show applyOp pd m (.decision now text) =
          (HandleUserSwitchbackDecision now m text).2 from rfl, ha]
        exact hI hnorm
      · rw [show applyOp pd m (.decision now text) =
          (HandleUserSwitchbackDecision now m text).2 from rfl, ha]

/-- Along any operation sequence from startup the primary is fixed and, in
Normal mode, the active model is the primary. -/
lemma runOps_normal_active (pd : String → Option Int) (ops : List ROp) (m0 : Manager)
    (hppne : m0.primary ≠ "")
    (hI : m0.fs.mode = modeNormal → m0.fs.activeModel = m0.primary) :
    (runOps pd m0 ops).primary = m0.primary ∧
    ((runOps pd m0 ops).fs.mode = modeNormal →
      (runOps pd m0 ops).fs.activeModel = (runOps pd m0 ops).primary) := by
  induction ops generalizing m0 with
  | nil => exact ⟨rfl, hI⟩
  | cons op rest ih =>
      have hconst := applyOp_const pd m0 op
      have hstep := applyOp_normal_active pd m0 op hppne hI
      have hppne' : (applyOp pd m0 op).primary ≠ "" := by
        rw [hconst.2.1]; exact hppne
      have hrec := ih (applyOp pd m0 op) hppne' (by
        intro hmode
        rw [hstep hmode, hconst.2.1])
      refine ⟨?_, hrec.2⟩
      rw [show runOps pd m0 (op :: rest) = runOps pd (applyOp pd m0 op) rest from rfl,
        hrec.1, hconst.2.1]

/-- C9 counterexample: a state reached by a rate-limit switch and two
successful probes is in AwaitingSwitchback mode — not Degraded — and yet
`ShouldProbe` returns true there, refuting "returns false whenever mode is
not Degraded". -/
theorem C9_counterexample :
    (runOps (fun _ => none) (mkManager ⟨true, 1, 1, 2, 1, true, 1⟩ "M0" ["M1", "M2"] "")
        [.rateLimited 0 "" none, .probe 100 true none, .probe 200 true none]).fs.mode =
      modeAwaitingUserSwitchbk ∧
    modeAwaitingUserSwitchbk ≠ modeDegraded ∧
    ShouldProbe 300
      (runOps (fun _ => none) (mkManager ⟨true, 1, 1, 2, 1, true, 1⟩ "M0" ["M1", "M2"] "")
        [.rateLimited 0 "" none, .probe 100 true none, .probe 200 true none]) = true := by
  decide

/-- C9 (amended): `ShouldProbe now` is true only when failover is enabled, the
active model is set and differs from the primary, `now` is not before
`holdUntil`, and `nextProbeAt` is unset or not after `now`; the mode field is
not consulted (it can be true in AwaitingSwitchback), but in every state
reachable from startup with a nonempty primary it is false while the mode is
Normal. -/
theorem C9_should_probe (pd : String → Option Int) (now : Int) (m : Manager)
    (cfg : FailoverCfg) (primary single : String) (chainRaw : List String) (ops : List ROp)
    (hsp : ShouldProbe now m = true) (hppne : primary ≠ "")
    (hnorm : (runOps pd (mkManager cfg primary chainRaw single) ops).fs.mode = modeNormal) :
    (m.cfg.enabled = true ∧ m.fs.activeModel ≠ "" ∧ m.fs.activeModel ≠ m.primary ∧
      ¬ now < m.fs.holdUntil ∧
      (m.fs.nextProbeAt = timeZero ∨ ¬ now < m.fs.nextProbeAt)) ∧
    (∀ t : Int, ShouldProbe t (runOps pd (mkManager cfg primary chainRaw single) ops) = false) := by
  constructor
  · revert hsp
    unfold ShouldProbe
    split
    · intro hsp
      exact absurd hsp (by simp)
    · rename_i hen
      split
      · intro hsp
        exact absurd hsp (by simp)
      · rename_i hactive
        split
        · intro hsp
          exact absurd hsp (by simp)
        · rename_i hhold
          intro hsp
          push_neg at hactive
          refine ⟨by revert hen; simp, hactive.1, hactive.2, hhold, ?_⟩
          revert hsp
          simp only [Bool.or_eq_true, decide_eq_true_eq, Bool.not_eq_true',
            decide_eq_false_iff_not]
          intro hsp
          exact hsp
  · intro t
    obtain ⟨hprim, hinv⟩ := runOps_normal_active pd ops (mkManager cfg primary chainRaw single)
      hppne (fun _ => rfl)
    have hact := hinv hnorm
    unfold ShouldProbe
    split
    · rfl
    · rw [if_pos (Or.inr hact)]

/-- Witness for the amended C9: a degraded state past its hold and probe
times (first conjunct) and the empty operation sequence, which stays in
Normal mode, where `ShouldProbe` is false (second conjunct). -/
theorem C9_should_probe_witness :
    (ShouldProbe 20000
        (runOps (fun _ => none) (mkManager ⟨true, 300, 60, 2, 10, true, 60⟩ "M0" ["M1", "M2"] "")
          [.rateLimited 0 "" none]) = true ∧
      ("M0" : String) ≠ "" ∧
      (runOps (fun _ => none) (mkManager ⟨true, 300, 60, 2, 10, true, 60⟩ "M0" ["M1", "M2"] "")
        ([] : List ROp)).fs.mode = modeNormal) ∧
    (((runOps (fun _ => none) (mkManager ⟨true, 300, 60, 2, 10, true, 60⟩ "M0" ["M1", "M2"] "")
          [.rateLimited 0 "" none]).cfg.enabled = true ∧
      (runOps (fun _ => none) (mkManager ⟨true, 300, 60, 2, 10, true, 60⟩ "M0" ["M1", "M2"] "")
          [.rateLimited 0 "" none]).fs.activeModel ≠ "" ∧
      (runOps (fun _ => none) (mkManager ⟨true, 300, 60, 2, 10, true, 60⟩ "M0" ["M1", "M2"] "")
          [.rateLimited 0 "" none]).fs.activeModel ≠
        (runOps (fun _ => none) (mkManager ⟨true, 300, 60, 2, 10, true, 60⟩ "M0" ["M1", "M2"] "")
          [.rateLimited 0 "" none]).primary ∧
      ¬ (20000 : Int) <
        (runOps (fun _ => none) (mkManager ⟨true, 300, 60, 2, 10, true, 60⟩ "M0" ["M1", "M2"] "")
          [.rateLimited 0 "" none]).fs.holdUntil ∧
      ((runOps (fun _ => none) (mkManager ⟨true, 300, 60, 2, 10, true, 60⟩ "M0" ["M1", "M2"] "")
          [.rateLimited 0 "" none]).fs.nextProbeAt = timeZero ∨
        ¬ (20000 : Int) <
          (runOps (fun _ => none) (mkManager ⟨true, 300, 60, 2, 10, true, 60⟩ "M0" ["M1", "M2"] "")
            [.rateLimited 0 "" none]).fs.nextProbeAt)) ∧
    (∀ t : Int, ShouldProbe t
        (runOps (fun _ => none) (mkManager ⟨true, 300, 60, 2, 10, true, 60⟩ "M0" ["M1", "M2"] "")
          ([] : List ROp)) = false)) :=
  ⟨⟨by decide, by decide, by decide⟩,
    C9_should_probe (fun _ => none) 20000
      (runOps (fun _ => none) (mkManager ⟨true, 300, 60, 2, 10, true, 60⟩ "M0" ["M1", "M2"] "")
        [.rateLimited 0 "" none])
      ⟨true, 300, 60, 2, 10, true, 60⟩ "M0" "" ["M1", "M2"] [] (by decide) (by decide)
      (by decide)⟩

lemma goMaxInt_one {a : Int} (h : 1 ≤ a) : goMaxInt a 1 = a := by
  unfold goMaxInt
  split
  · rfl
  · omega

lemma ite_gt_eq_max (a b : Int) : (if b > a then b else a) = max a b := by
  split
  · rename_i h
    exact (max_eq_right h.le).symm
  · rename_i h
    exact (max_eq_left (not_lt.mp h)).symm

lemma buildSwitchbackPrompt_ne (p l a : String) : buildSwitchbackPrompt p l a ≠ "" := by
  unfold buildSwitchbackPrompt
  intro h
  have hlen := congrArg String.length h
  simp only [String.length_append] at hlen
  have h14 : ("Primary model " : String).length = 14 := rfl
  have h0 : ("" : String).length = 0 := rfl
  rw [h14, h0] at hlen
  omega

/-- C5 counterexample: on a probe failure that is itself a rate-limit error
with no timing hints, the code schedules the next probe at `now + hold`
(and can even schedule it *earlier* than `now + backoff` when the configured
hold is shorter than the backoff), not at `now + backoff` extended by hints
as claimed. -/
theorem C5_counterexample :
    (recordProbeResult (fun _ => none) 100
        (runOps (fun _ => none) (mkManager ⟨true, 300, 60, 2, 10, true, 60⟩ "M0" ["M1"] "")
          [.rateLimited 0 "" none])
        false (some (.rateLimit ⟨"rl", 429, "", "", ""⟩))).2.fs.nextProbeAt = 18100 ∧
    (18100 : Int) ≠ 100 + 600 ∧
    (recordProbeResult (fun _ => none) 100
        (runOps (fun _ => none) (mkManager ⟨true, 1, 1, 2, 10, true, 60⟩ "M0" ["M1"] "")
          [.rateLimited 0 "" none])
        false (some (.rateLimit ⟨"rl", 429, "", "", ""⟩))).2.fs.nextProbeAt = 160 ∧
    (160 : Int) < 100 + 600 := by
  decide

/-- C5 (amended): for configured durations and threshold of at least one
(the code clamps smaller values to one), a successful probe increments
`consecutiveProbeSuccesses`, schedules `nextProbeAt = now + probeInterval`,
sets mode AwaitingSwitchback exactly when the new count reaches
`ProbeSuccessThreshold`, and produces a prompt string exactly when the
threshold is reached and switchback requires approval; a failed probe resets
the counter, sets mode Degraded and schedules the next probe at
`now + failureBackoff` — except that when the failure is itself a rate-limit
error both `holdUntil` and `nextProbeAt` are instead set to
`max(now + hold, resolved timing hints)`, which replaces (and may precede)
the backoff schedule. -/
theorem C5_record_probe (pd : String → Option Int) (now : Int) (m : Manager)
    (err : Option LLMError)
    (hi : 1 ≤ m.cfg.probeIntervalMinutes) (hb : 1 ≤ m.cfg.probeFailureBackoffMinutes)
    (hh : 1 ≤ m.cfg.holdMinutes) (ht : 1 ≤ m.cfg.probeSuccessThreshold) :
    ((recordProbeResult pd now m true err).2.fs.consecutiveProbeSuccesses =
        m.fs.consecutiveProbeSuccesses + 1 ∧
      (recordProbeResult pd now m true err).2.fs.nextProbeAt =
        now + minutesToSec m.cfg.probeIntervalMinutes ∧
      (recordProbeResult pd now m true err).2.fs.mode =
        (if m.fs.consecutiveProbeSuccesses + 1 ≥ m.cfg.probeSuccessThreshold then
          modeAwaitingUserSwitchbk
        else m.fs.mode) ∧
      ((recordProbeResult pd now m true err).1.promptText ≠ "" ↔
        (m.fs.consecutiveProbeSuccesses + 1 ≥ m.cfg.probeSuccessThreshold ∧
          m.cfg.switchbackRequiresApproval = true))) ∧
    ((recordProbeResult pd now m false err).2.fs.consecutiveProbeSuccesses = 0 ∧
      (recordProbeResult pd now m false err).2.fs.mode = modeDegraded ∧
      (recordProbeResult pd now m false err).2.fs.nextProbeAt =
        (match err with
          | some (.rateLimit rl) =>
              max (now + minutesToSec m.cfg.holdMinutes) (nextProbeFromRateLimitHints pd now rl)
          | _ => now + minutesToSec m.cfg.probeFailureBackoffMinutes) ∧
      (∀ rl, err = some (.rateLimit rl) →
        (recordProbeResult pd now m false err).2.fs.holdUntil =
          max (now + minutesToSec m.cfg.holdMinutes)
            (nextProbeFromRateLimitHints pd now rl))) := by
  constructor
  · refine ⟨?_, ?_, ?_, ?_⟩
    · unfold recordProbeResult
      simp only [if_true]
      split <;> rfl
    · unfold recordProbeResult
      simp only [if_true, goMaxInt_one hi]
      split <;> rfl
    · unfold recordProbeResult
      simp only [if_true, goMaxInt_one ht]
      split
      · rfl
      · rfl
    · unfold recordProbeResult
      simp only [if_true, goMaxInt_one ht]
      split
      · rename_i hc
        exact iff_of_true (buildSwitchbackPrompt_ne _ _ _) hc
      · rename_i hc
        exact iff_of_false (fun hne => hne rfl) hc
  · cases err with
    | none =>
        refine ⟨?_, ?_, ?_, ?_⟩
        · rfl
        · rfl
        · unfold recordProbeResult
          simp only [Bool.false_eq_true, if_false, goMaxInt_one hb]
        · intro rl h
          exact absurd h (by simp)
    | some e =>
        cases e with
        | other s =>
            refine ⟨?_, ?_, ?_, ?_⟩
            · rfl
            · rfl
            · unfold recordProbeResult
              simp only [Bool.false_eq_true, if_false, goMaxInt_one hb]
            · intro rl h
              exact absurd h (by simp)
        | rateLimit rl =>
            refine ⟨?_, ?_, ?_, ?_⟩
            · rfl
            · rfl
            · unfold recordProbeResult
              simp only [Bool.false_eq_true, if_false, goMaxInt_one hh]
              exact ite_gt_eq_max _ _
            · intro rl' h
              have hrl : rl' = rl := by
                injection h with h2
                injection h2 with h3
                exact h3.symm
              subst hrl
              unfold recordProbeResult
              simp only [Bool.false_eq_true, if_false, goMaxInt_one hh]
              exact ite_gt_eq_max _ _

/-- Witness for the amended C5 at a concrete degraded state with the default
configuration and a hint-free rate-limit probe failure. -/
theorem C5_record_probe_witness :
    (1 ≤ (runOps (fun _ => none) (mkManager ⟨true, 300, 60, 2, 10, true, 60⟩ "M0" ["M1"] "")
        [.rateLimited 0 "" none]).cfg.probeIntervalMinutes ∧
      1 ≤ (runOps (fun _ => none) (mkManager ⟨true, 300, 60, 2, 10, true, 60⟩ "M0" ["M1"] "")
        [.rateLimited 0 "" none]).cfg.probeFailureBackoffMinutes ∧
      1 ≤ (runOps (fun _ => none) (mkManager ⟨true, 300, 60, 2, 10, true, 60⟩ "M0" ["M1"] "")
        [.rateLimited 0 "" none]).cfg.holdMinutes ∧
      1 ≤ (runOps (fun _ => none) (mkManager ⟨true, 300, 60, 2, 10, true, 60⟩ "M0" ["M1"] "")
        [.rateLimited 0 "" none]).cfg.probeSuccessThreshold) ∧
    ((recordProbeResult (fun _ => none) 100
        (runOps (fun _ => none) (mkManager ⟨true, 300, 60, 2, 10, true, 60⟩ "M0" ["M1"] "")
          [.rateLimited 0 "" none]) true
        (some (.rateLimit ⟨"rl", 429, "", "", ""⟩))).2.fs.consecutiveProbeSuccesses =
        (runOps (fun _ => none) (mkManager ⟨true, 300, 60, 2, 10, true, 60⟩ "M0" ["M1"] "")
          [.rateLimited 0 "" none]).fs.consecutiveProbeSuccesses + 1 ∧
      (recordProbeResult (fun _ => none) 100
        (runOps (fun _ => none) (mkManager ⟨true, 300, 60, 2, 10, true, 60⟩ "M0" ["M1"] "")
          [.rateLimited 0 "" none]) true
        (some (.rateLimit ⟨"rl", 429, "", "", ""⟩))).2.fs.nextProbeAt =
        100 + minutesToSec (runOps (fun _ => none)
          (mkManager ⟨true, 300, 60, 2, 10, true, 60⟩ "M0" ["M1"] "")
          [.rateLimited 0 "" none]).cfg.probeIntervalMinutes ∧
      (recordProbeResult (fun _ => none) 100
        (runOps (fun _ => none) (mkManager ⟨true, 300, 60, 2, 10, true, 60⟩ "M0" ["M1"] "")
          [.rateLimited 0 "" none]) true
        (some (.rateLimit ⟨"rl", 429, "", "", ""⟩))).2.fs.mode =
        (if (runOps (fun _ => none) (mkManager ⟨true, 300, 60, 2, 10, true, 60⟩ "M0" ["M1"] "")
            [.rateLimited 0 "" none]).fs.consecutiveProbeSuccesses + 1 ≥
            (runOps (fun _ => none) (mkManager ⟨true, 300, 60, 2, 10, true, 60⟩ "M0" ["M1"] "")
              [.rateLimited 0 "" none]).cfg.probeSuccessThreshold then
          modeAwaitingUserSwitchbk
        else (runOps (fun _ => none) (mkManager ⟨true, 300, 60, 2, 10, true, 60⟩ "M0" ["M1"] "")
          [.rateLimited 0 "" none]).fs.mode) ∧
      ((recordProbeResult (fun _ => none) 100
        (runOps (fun _ => none) (mkManager ⟨true, 300, 60, 2, 10, true, 60⟩ "M0" ["M1"] "")
          [.rateLimited 0 "" none]) true
        (some (.rateLimit ⟨"rl", 429, "", "", ""⟩))).1.promptText ≠ "" ↔
        ((runOps (fun _ => none) (mkManager ⟨true, 300, 60, 2, 10, true, 60⟩ "M0" ["M1"] "")
            [.rateLimited 0 "" none]).fs.consecutiveProbeSuccesses + 1 ≥
          (runOps (fun _ => none) (mkManager ⟨true, 300, 60, 2, 10, true, 60⟩ "M0" ["M1"] "")
            [.rateLimited 0 "" none]).cfg.probeSuccessThreshold ∧
          (runOps (fun _ => none) (mkManager ⟨true, 300, 60, 2, 10, true, 60⟩ "M0" ["M1"] "")
            [.rateLimited 0 "" none]).cfg.switchbackRequiresApproval = true))) ∧
    ((recordProbeResult (fun _ => none) 100
        (runOps (fun _ => none) (mkManager ⟨true, 300, 60, 2, 10, true, 60⟩ "M0" ["M1"] "")
          [.rateLimited 0 "" none]) false
        (some (.rateLimit ⟨"rl", 429, "", "", ""⟩))).2.fs.consecutiveProbeSuccesses = 0 ∧
      (recordProbeResult (fun _ => none) 100
        (runOps (fun _ => none) (mkManager ⟨true, 300, 60, 2, 10, true, 60⟩ "M0" ["M1"] "")
          [.rateLimited 0 "" none]) false
        (some (.rateLimit ⟨"rl", 429, "", "", ""⟩))).2.fs.mode = modeDegraded ∧
      (recordProbeResult (fun _ => none) 100
        (runOps (fun _ => none) (mkManager ⟨true, 300, 60, 2, 10, true, 60⟩ "M0" ["M1"] "")
          [.rateLimited 0 "" none]) false
        (some (.rateLimit ⟨"rl", 429, "", "", ""⟩))).2.fs.nextProbeAt =
        (match (some (.rateLimit ⟨"rl", 429, "", "", ""⟩) : Option LLMError) with
          | some (.rateLimit rl) =>
              max (100 + minutesToSec (runOps (fun _ => none)
                  (mkManager ⟨true, 300, 60, 2, 10, true, 60⟩ "M0" ["M1"] "")
                  [.rateLimited 0 "" none]).cfg.holdMinutes)
                (nextProbeFromRateLimitHints (fun _ => none) 100 rl)
          | _ => 100 + minutesToSec (runOps (fun _ => none)
              (mkManager ⟨true, 300, 60, 2, 10, true, 60⟩ "M0" ["M1"] "")
              [.rateLimited 0 "" none]).cfg.probeFailureBackoffMinutes) ∧
      (∀ rl, (some (.rateLimit ⟨"rl", 429, "", "", ""⟩) : Option LLMError) =
          some (.rateLimit rl) →
        (recordProbeResult (fun _ => none) 100
          (runOps (fun _ => none) (mkManager ⟨true, 300, 60, 2, 10, true, 60⟩ "M0" ["M1"] "")
            [.rateLimited 0 "" none]) false
          (some (.rateLimit ⟨"rl", 429, "", "", ""⟩))).2.fs.holdUntil =
          max (100 + minutesToSec (runOps (fun _ => none)
              (mkManager ⟨true, 300, 60, 2, 10, true, 60⟩ "M0" ["M1"] "")
              [.rateLimited 0 "" none]).cfg.holdMinutes)
            (nextProbeFromRateLimitHints (fun _ => none) 100 rl))) :=
  ⟨⟨by decide, by decide, by decide, by decide⟩,
    C5_record_probe (fun _ => none) 100
      (runOps (fun _ => none) (mkManager ⟨true, 300, 60, 2, 10, true, 60⟩ "M0" ["M1"] "")
        [.rateLimited 0 "" none])
      (some (.rateLimit ⟨"rl", 429, "", "", ""⟩))
      (by decide) (by decide) (by decide) (by decide)⟩

lemma foldlMax_spec (ts : List Int) : ∀ a : Int,
    (a ≤ ts.foldl (fun x b => if x < b then b else x) a) ∧
    (∀ t ∈ ts, t ≤ ts.foldl (fun x b => if x < b then b else x) a) ∧
    (ts.foldl (fun x b => if x < b then b else x) a = a ∨
      ts.foldl (fun x b => if x < b then b else x) a ∈ ts) := by
  induction ts with
  | nil =>
      intro a
      refine ⟨le_refl a, ?_, Or.inl rfl⟩
      intro t ht
      exact absurd ht (List.not_mem_nil t)
  | cons b bs ih =>
      intro a
      obtain ⟨h1, h2, h3⟩ := ih (if a < b then b else a)
      have hab : a ≤ (if a < b then b else a) ∧ b ≤ (if a < b then b else a) := by
        constructor <;> (split <;> omega)
      refine ⟨le_trans hab.1 h1, ?_, ?_⟩
      · intro t ht
        rcases List.mem_cons.mp ht with h | h
        · subst h
          exact le_trans hab.2 h1
        · exact h2 t h
      · rcases h3 with h | h
        · rw [show ((b :: bs).foldl (fun x c => if x < c then c else x) a) =
            (bs.foldl (fun x c => if x < c then c else x) (if a < b then b else a)) from rfl, h]
          split
          · right
            exact List.mem_cons_self b bs
          · left
            rfl
        · right
          exact List.mem_cons_of_mem b h

lemma latestTime_ub (L : List Int) : ∀ t ∈ L, t ≤ latestTime L := by
  cases L with
  | nil =>
      intro t ht
      exact absurd ht (List.not_mem_nil t)
  | cons a ts =>
      intro t ht
      rcases List.mem_cons.mp ht with h | h
      · subst h
        exact (foldlMax_spec ts t).1
      · exact (foldlMax_spec ts a).2.1 t h

lemma latestTime_mem (L : List Int) (h : L ≠ []) : latestTime L ∈ L := by
  cases L with
  | nil => exact absurd rfl h
  | cons a ts =>
      rcases (foldlMax_spec ts a).2.2 with h2 | h2
      · rw [show latestTime (a :: ts) = ts.foldl (fun x b => if x < b then b else x) a from rfl,
          h2]
        exact List.mem_cons_self a ts
      · exact List.mem_cons_of_mem a h2

lemma goAtoi_ne_empty {s : String} {v : Int} (h : goAtoi s = some v) : s ≠ "" := by
  intro he
  subst he
  rw [show goAtoi "" = none from rfl] at h
  exact Option.noConfusion h

lemma goEqualFold_self (s : String) : goEqualFold s s = true := by
  unfold goEqualFold
  exact beq_self_eq_true _

lemma onRateLimited_switched_holdUntil (pd : String → Option Int) (now : Int) (m : Manager)
    (model : String) (err : Option LLMError)
    (hsw : (OnLLMRateLimited pd now m model err).1.switched = true) :
    (OnLLMRateLimited pd now m model err).2.fs.holdUntil = rlHoldUntil pd now m.cfg err := by
  revert hsw
  unfold OnLLMRateLimited
  split
  · intro hsw
    simp at hsw
  · dsimp only
    split
    · intro hsw
      simp at hsw
    · split
      · intro hsw
        simp at hsw
      · intro _
        rfl

/-- C6 counterexample: a numeric `Retry-After` value carrying surrounding
whitespace (" 120") is resolved as *epoch* seconds 120 rather than a
seconds-delta added to `now`, because the code dispatches on case-folded
string equality of the trimmed value with the raw `RetryAfter` field. -/
theorem C6_counterexample :
    nextProbeFromRateLimitHints (fun _ => none) 1000000 ⟨"rl", 429, " 120", "", ""⟩ = 120 ∧
    (120 : Int) ≠ 1000000 + 120 := by
  decide

/-- C6 (amended): a trimmed numeric `Retry-After` value is a seconds delta
added to now; a numeric reset value whose trimmed text does not case-fold
equal the `RetryAfter` field is epoch seconds (equality with `RetryAfter`
flips it to a delta, and an untrimmed numeric `RetryAfter` to an epoch);
non-numeric values go through the HTTP-date/RFC3339 parser; the resolved
resume time is the latest of the successfully resolved candidates (`timeZero`
when none); and on a switch `OnLLMRateLimited` sets `holdUntil` to the
maximum of `now` plus the configured hold duration and that resolved time. -/
theorem C6_rate_signal (pd : String → Option Int) (now : Int) (m : Manager) (model : String)
    (rl : RateLimitErr) (hh : 1 ≤ m.cfg.holdMinutes)
    (hswitch : (OnLLMRateLimited pd now m model (some (.rateLimit rl))).1.switched = true) :
    (∀ s : Int, goTrimSpace rl.retryAfter = rl.retryAfter → goAtoi rl.retryAfter = some s →
      hintCandidate pd now rl.retryAfter rl.retryAfter = some (now + s)) ∧
    (∀ raw : String, ∀ s : Int, goAtoi (goTrimSpace raw) = some s →
      goEqualFold (goTrimSpace raw) rl.retryAfter = false →
      hintCandidate pd now rl.retryAfter raw = some s) ∧
    (∀ raw : String, goTrimSpace raw ≠ "" → goAtoi (goTrimSpace raw) = none →
      hintCandidate pd now rl.retryAfter raw = pd (goTrimSpace raw)) ∧
    (∀ t ∈ hintCandidateList pd now rl, t ≤ nextProbeFromRateLimitHints pd now rl) ∧
    (hintCandidateList pd now rl ≠ [] →
      nextProbeFromRateLimitHints pd now rl ∈ hintCandidateList pd now rl) ∧
    (hintCandidateList pd now rl = [] → nextProbeFromRateLimitHints pd now rl = timeZero) ∧
    (OnLLMRateLimited pd now m model (some (.rateLimit rl))).2.fs.holdUntil =
      max (now + minutesToSec m.cfg.holdMinutes) (nextProbeFromRateLimitHints pd now rl) := by
  refine ⟨?_, ?_, ?_, ?_, ?_, ?_, ?_⟩
  · intro s htrim hatoi
    unfold hintCandidate
    rw [htrim, if_neg (goAtoi_ne_empty hatoi), hatoi]
    simp only [goEqualFold_self, if_true]
  · intro raw s hatoi hfold
    unfold hintCandidate
    rw [if_neg (goAtoi_ne_empty hatoi), hatoi]
    simp only [hfold, Bool.false_eq_true, if_false]
  · intro raw hne hatoi
    unfold hintCandidate
    rw [if_neg hne, hatoi]
  · intro t ht
    exact latestTime_ub _ t ht
  · intro hne
    exact latestTime_mem _ hne
  · intro hnil
    unfold nextProbeFromRateLimitHints
    rw [show ([rl.retryAfter, rl.rateLimitRequestsReset, rl.rateLimitTokensReset].filterMap
        (hintCandidate pd now rl.retryAfter)) = hintCandidateList pd now rl from rfl, hnil]
    rfl
  · rw [onRateLimited_switched_holdUntil pd now m model (some (.rateLimit rl)) hswitch]
    unfold rlHoldUntil
    rw [goMaxInt_one hh]
    exact ite_gt_eq_max _ _

/-- Witness for the amended C6: a fresh manager with the default
configuration switching on a rate-limit error with an epoch requests-reset
hint. -/
theorem C6_rate_signal_witness :
    (1 ≤ (mkManager ⟨true, 300, 60, 2, 10, true, 60⟩ "M0" ["M1"] "").cfg.holdMinutes ∧
      (OnLLMRateLimited (fun _ => none) 1000
        (mkManager ⟨true, 300, 60, 2, 10, true, 60⟩ "M0" ["M1"] "") "M0"
        (some (.rateLimit ⟨"rl", 429, "120", "1735689600", ""⟩))).1.switched = true) ∧
    (OnLLMRateLimited (fun _ => none) 1000
        (mkManager ⟨true, 300, 60, 2, 10, true, 60⟩ "M0" ["M1"] "") "M0"
        (some (.rateLimit ⟨"rl", 429, "120", "1735689600", ""⟩))).2.fs.holdUntil =
      max (1000 + minutesToSec
          (mkManager ⟨true, 300, 60, 2, 10, true, 60⟩ "M0" ["M1"] "").cfg.holdMinutes)
        (nextProbeFromRateLimitHints (fun _ => none) 1000 ⟨"rl", 429, "120", "1735689600", ""⟩) ∧
    hintCandidate (fun _ => none) 1000 "120" "120" = some (1000 + 120) ∧
    hintCandidate (fun _ => none) 1000 "120" "1735689600" = some 1735689600 :=
  ⟨⟨by decide, by decide⟩,
    (C6_rate_signal (fun _ => none) 1000
      (mkManager ⟨true, 300, 60, 2, 10, true, 60⟩ "M0" ["M1"] "") "M0"
      ⟨"rl", 429, "120", "1735689600", ""⟩ (by decide) (by decide)).2.2.2.2.2.2,
    (C6_rate_signal (fun _ => none) 1000
      (mkManager ⟨true, 300, 60, 2, 10, true, 60⟩ "M0" ["M1"] "") "M0"
      ⟨"rl", 429, "120", "1735689600", ""⟩ (by decide) (by decide)).1 120 (by decide) (by decide),
    (C6_rate_signal (fun _ => none) 1000
      (mkManager ⟨true, 300, 60, 2, 10, true, 60⟩ "M0" ["M1"] "") "M0"
      ⟨"rl", 429, "120", "1735689600", ""⟩ (by decide) (by decide)).2.1 "1735689600" 1735689600
      (by decide) (by decide)⟩

lemma dedupFirstAux_congr : ∀ (l : List String) (s1 s2 : List String),
    (∀ x, x ∈ s1 ↔ x ∈ s2) → dedupFirstAux s1 l = dedupFirstAux s2 l := by
  intro l
  induction l with
  | nil => intro s1 s2 _; rfl
  | cons s rest ih =>
      intro s1 s2 hiff
      unfold dedupFirstAux
      by_cases hmem : s ∈ s1
      · rw [if_pos hmem, if_pos ((hiff s).mp hmem)]
        exact ih s1 s2 hiff
      · rw [if_neg hmem, if_neg (fun h => hmem ((hiff s).mpr h))]
        rw [ih (s :: s1) (s :: s2) (by
          intro x
          simp only [List.mem_cons]
          exact or_congr Iff.rfl (hiff x))]

lemma planFold_eq (calls : List ToolCall) : ∀ acc : List String,
    calls.foldl planStep acc =
      acc ++ dedupFirstAux acc ((calls.map summarizeToolCallForPlan).filter (· ≠ "")) := by
  induction calls with
  | nil =>
      intro acc
      simp [dedupFirstAux]
  | cons tc rest ih =>
      intro acc
      simp only [List.foldl_cons, List.map_cons, List.filter_cons]
      by_cases h0 : summarizeToolCallForPlan tc = ""
      · have hstep : planStep acc tc = acc := by
          unfold planStep
          rw [if_pos (Or.inl h0)]
        rw [hstep, show (decide (summarizeToolCallForPlan tc ≠ "")) = false by
          simp [h0]]
        simp only [Bool.false_eq_true, if_false]
        exact ih acc
      · rw [show (decide (summarizeToolCallForPlan tc ≠ "")) = true by simp [h0]]
        simp only [if_true]
        by_cases hmem : summarizeToolCallForPlan tc ∈ acc
        · have hstep : planStep acc tc = acc := by
            unfold planStep
            rw [if_pos (Or.inr hmem)]
          rw [hstep]
          unfold dedupFirstAux
          rw [if_pos hmem]
          exact ih acc
        · have hstep : planStep acc tc = acc ++ [summarizeToolCallForPlan tc] := by
            unfold planStep
            rw [if_neg (by
              rintro (h | h)
              · exact h0 h
              · exact hmem h)]
          rw [hstep]
          unfold dedupFirstAux
          rw [if_neg hmem, ih (acc ++ [summarizeToolCallForPlan tc])]
          rw [dedupFirstAux_congr _ (acc ++ [summarizeToolCallForPlan tc])
            (summarizeToolCallForPlan tc :: acc) (by
              intro x
              simp only [List.mem_append, List.mem_singleton, List.mem_cons]
              tauto)]
          simp

lemma dedupFirstAux_fresh : ∀ (l seen : List String),
    (dedupFirstAux seen l).Nodup ∧ ∀ x ∈ dedupFirstAux seen l, x ∉ seen := by
  intro l
  induction l with
  | nil =>
      intro seen
      exact ⟨List.nodup_nil, by intro x hx; exact absurd hx (List.not_mem_nil x)⟩
  | cons s rest ih =>
      intro seen
      unfold dedupFirstAux
      by_cases hmem : s ∈ seen
      · rw [if_pos hmem]
        exact ih seen
      · rw [if_neg hmem]
        obtain ⟨hnd, hfresh⟩ := ih (s :: seen)
        constructor
        · refine List.nodup_cons.mpr ⟨?_, hnd⟩
          intro hcon
          exact hfresh s hcon (List.mem_cons_self s seen)
        · intro x hx
          rcases List.mem_cons.mp hx with h | h
          · subst h
            exact hmem
          · intro hx2
            exact hfresh x h (List.mem_cons_of_mem s hx2)

lemma dedupFirstAux_length_le : ∀ (l seen : List String),
    (dedupFirstAux seen l).length ≤ l.length := by
  intro l
  induction l with
  | nil => intro seen; simp [dedupFirstAux]
  | cons s rest ih =>
      intro seen
      unfold dedupFirstAux
      by_cases hmem : s ∈ seen
      · rw [if_pos hmem]
        calc (dedupFirstAux seen rest).length ≤ rest.length := ih seen
          _ ≤ (s :: rest).length := by simp
      · rw [if_neg hmem]
        simp only [List.length_cons]
        exact Nat.succ_le_succ (ih (s :: seen))

/-- C8 counterexample: a two-call batch yields exactly two steps — below the
claimed minimum of four — and neither generic closing step is appended, so
derivation performs no padding and no 4–6 range capping (the repository's own
test `TestBuildExecutionPlanBullets_NoDefaultPadding` asserts the same). -/
theorem C8_counterexample :
    buildExecutionPlanBullets
        [⟨"1", "read_file", none, [("path", "/tmp/a.txt")]⟩,
          ⟨"2", "exec", none, [("command", "rg foo .")]⟩] =
      ["Read a.txt", "Search codebase for relevant entries"] ∧
    (buildExecutionPlanBullets
        [⟨"1", "read_file", none, [("path", "/tmp/a.txt")]⟩,
          ⟨"2", "exec", none, [("command", "rg foo .")]⟩]).length = 2 ∧
    ¬ 4 ≤ (buildExecutionPlanBullets
        [⟨"1", "read_file", none, [("path", "/tmp/a.txt")]⟩,
          ⟨"2", "exec", none, [("command", "rg foo .")]⟩]).length ∧
    "Validate intermediate results" ∉ buildExecutionPlanBullets
        [⟨"1", "read_file", none, [("path", "/tmp/a.txt")]⟩,
          ⟨"2", "exec", none, [("command", "rg foo .")]⟩] ∧
    "Summarize outcome" ∉ buildExecutionPlanBullets
        [⟨"1", "read_file", none, [("path", "/tmp/a.txt")]⟩,
          ⟨"2", "exec", none, [("command", "rg foo .")]⟩] := by
  decide

/-- C8 (amended): plan derivation converts each tool call into one imperative
phrase and deduplicates by phrase, keeping first occurrences in order (empty
phrases dropped); the result is duplicate-free and never longer than the
batch — no minimum padding with generic closing steps and no 4–6 range cap is
applied. -/
theorem C8_plan_derivation (calls : List ToolCall) :
    buildExecutionPlanBullets calls =
      dedupFirst ((calls.map summarizeToolCallForPlan).filter (· ≠ "")) ∧
    (buildExecutionPlanBullets calls).Nodup ∧
    (buildExecutionPlanBullets calls).length ≤ calls.length := by
  have heq : buildExecutionPlanBullets calls =
      dedupFirst ((calls.map summarizeToolCallForPlan).filter (· ≠ "")) := by
    unfold buildExecutionPlanBullets dedupFirst
    rw [planFold_eq calls []]
    simp
  refine ⟨heq, ?_, ?_⟩
  · rw [heq]
    exact (dedupFirstAux_fresh _ []).1
  · rw [heq]
    calc (dedupFirst ((calls.map summarizeToolCallForPlan).filter (· ≠ ""))).length
        ≤ ((calls.map summarizeToolCallForPlan).filter (· ≠ "")).length :=
          dedupFirstAux_length_le _ []
      _ ≤ (calls.map summarizeToolCallForPlan).length := List.length_filter_le _ _
      _ = calls.length := List.length_map _ _

lemma runIterAux_iterations_le (env : LoopEnv) (cfg : LoopCfg) : ∀ (fuel iteration : Nat)
    (mgr : Option Manager) (msgs : List Msg) (ps : PlanState) (callIdx toolIdx : Nat)
    (trace : List ChatCall),
    (runIterAux env cfg fuel iteration mgr msgs ps callIdx toolIdx trace).iterations ≤
      iteration + fuel := by
  intro fuel
  induction fuel with
  | zero =>
      intro iteration mgr msgs ps callIdx toolIdx trace
      exact le_refl _
  | succ n ih =>
      intro iteration mgr msgs ps callIdx toolIdx trace
      unfold runIterAux
      rcases hphase : llmCallPhase env cfg mgr callIdx msgs with ⟨mgr', calls, callIdx', pr⟩
      cases pr with
      | fail e =>
          dsimp only
          omega
      | ok resp model =>
          dsimp only
          split
          · dsimp only
            omega
          · calc (runIterAux env cfg n (iteration + 1) mgr' _ _ callIdx' _ _).iterations ≤
                (iteration + 1) + n := ih _ _ _ _ _ _ _
              _ = iteration + (n + 1) := by omega

/-- When the backend always answers with tool calls, the call phase always
returns that answer from its first attempt. -/
lemma llmCallPhase_always (env : LoopEnv) (cfg : LoopCfg) (mgr : Option Manager)
    (callIdx : Nat) (msgs : List Msg)
    (halways : ∀ i mo ms ds, match env.chat i mo ms ds with
      | .ok r => r.toolCalls ≠ []
      | .error _ => False) :
    ∃ resp, llmCallPhase env cfg mgr callIdx msgs =
      (applySuccess mgr (routedModel cfg mgr),
        [⟨routedModel cfg mgr, msgs, cfg.toolDefs⟩], callIdx + 1,
        .ok resp (routedModel cfg mgr)) ∧
      resp.toolCalls ≠ [] := by
  have h := halways callIdx (routedModel cfg mgr) msgs cfg.toolDefs
  unfold llmCallPhase
  dsimp only
  rcases hc : env.chat callIdx (routedModel cfg mgr) msgs cfg.toolDefs with e | r
  · rw [hc] at h
    exact h.elim
  · rw [hc] at h
    refine ⟨r, ?_, h⟩
    rfl

lemma runIterAux_cap (env : LoopEnv) (cfg : LoopCfg)
    (halways : ∀ i mo ms ds, match env.chat i mo ms ds with
      | .ok r => r.toolCalls ≠ []
      | .error _ => False) : ∀ (fuel iteration : Nat)
    (mgr : Option Manager) (msgs : List Msg) (ps : PlanState) (callIdx toolIdx : Nat)
    (trace : List ChatCall),
    (runIterAux env cfg fuel iteration mgr msgs ps callIdx toolIdx trace).iterations =
      iteration + fuel ∧
    (runIterAux env cfg fuel iteration mgr msgs ps callIdx toolIdx trace).content = "" ∧
    (runIterAux env cfg fuel iteration mgr msgs ps callIdx toolIdx trace).err = none := by
  intro fuel
  induction fuel with
  | zero =>
      intro iteration mgr msgs ps callIdx toolIdx trace
      exact ⟨rfl, rfl, rfl⟩
  | succ n ih =>
      intro iteration mgr msgs ps callIdx toolIdx trace
      obtain ⟨resp, hphase, hne⟩ := llmCallPhase_always env cfg mgr callIdx msgs halways
      unfold runIterAux
      rw [hphase]
      dsimp only
      rw [if_neg hne]
      obtain ⟨h1, h2, h3⟩ := ih (iteration + 1) (applySuccess mgr (routedModel cfg mgr)) _ _
        (callIdx + 1) _ _
      exact ⟨by rw [h1]; omega, h2, h3⟩

/-- C7: the turn loop executes at most `maxIterations` iterations, and when
the backend keeps requesting tools for the whole budget the loop stops
exactly at the cap with empty partial text, and the turn still returns the
configured default response instead of nothing. -/
theorem C7_iteration_cap (env : LoopEnv) (cfg : LoopCfg) (mgr : Option Manager)
    (msgs : List Msg) :
    (runLLMIteration env cfg mgr msgs).iterations ≤ cfg.maxIterations ∧
    ((∀ i mo ms ds, match env.chat i mo ms ds with
        | .ok r => r.toolCalls ≠ []
        | .error _ => False) →
      (runLLMIteration env cfg mgr msgs).iterations = cfg.maxIterations ∧
      (runLLMIteration env cfg mgr msgs).content = "" ∧
      runTurn env cfg mgr msgs = .ok cfg.defaultResponse) := by
  constructor
  · have h := runIterAux_iterations_le env cfg cfg.maxIterations 0 mgr msgs ⟨false, [], []⟩ 0 0 []
    unfold runLLMIteration
    omega
  · intro halways
    obtain ⟨h1, h2, h3⟩ := runIterAux_cap env cfg halways cfg.maxIterations 0 mgr msgs
      ⟨false, [], []⟩ 0 0 []
    refine ⟨by unfold runLLMIteration; omega, h2, ?_⟩
    unfold runTurn
    dsimp only
    rw [show runLLMIteration env cfg mgr msgs =
      runIterAux env cfg cfg.maxIterations 0 mgr msgs ⟨false, [], []⟩ 0 0 [] from rfl, h3, h2]
    rfl

/-- Witness for C7: a backend that always asks for one tool call; with a cap
of three iterations the loop runs exactly three times and the turn returns
the default response. -/
theorem C7_iteration_cap_witness :
    (runLLMIteration
        ⟨fun _ _ _ _ => .ok ⟨"", [⟨"1", "read_file", none, []⟩]⟩, fun _ => 0,
          fun _ _ => ⟨"ok", "", true, none⟩, fun _ => none⟩
        ⟨3, "M0", ["d"], 8, "done"⟩ none []).iterations ≤ 3 ∧
    ((runLLMIteration
        ⟨fun _ _ _ _ => .ok ⟨"", [⟨"1", "read_file", none, []⟩]⟩, fun _ => 0,
          fun _ _ => ⟨"ok", "", true, none⟩, fun _ => none⟩
        ⟨3, "M0", ["d"], 8, "done"⟩ none []).iterations = 3 ∧
      (runLLMIteration
        ⟨fun _ _ _ _ => .ok ⟨"", [⟨"1", "read_file", none, []⟩]⟩, fun _ => 0,
          fun _ _ => ⟨"ok", "", true, none⟩, fun _ => none⟩
        ⟨3, "M0", ["d"], 8, "done"⟩ none []).content = "" ∧
      runTurn
        ⟨fun _ _ _ _ => .ok ⟨"", [⟨"1", "read_file", none, []⟩]⟩, fun _ => 0,
          fun _ _ => ⟨"ok", "", true, none⟩, fun _ => none⟩
        ⟨3, "M0", ["d"], 8, "done"⟩ none [] = .ok "done") :=
  ⟨(C7_iteration_cap
      ⟨fun _ _ _ _ => .ok ⟨"", [⟨"1", "read_file", none, []⟩]⟩, fun _ => 0,
        fun _ _ => ⟨"ok", "", true, none⟩, fun _ => none⟩
      ⟨3, "M0", ["d"], 8, "done"⟩ none []).1,
    (C7_iteration_cap
      ⟨fun _ _ _ _ => .ok ⟨"", [⟨"1", "read_file", none, []⟩]⟩, fun _ => 0,
        fun _ _ => ⟨"ok", "", true, none⟩, fun _ => none⟩
      ⟨3, "M0", ["d"], 8, "done"⟩ none []).2
      (fun i mo ms ds => by simp)⟩

lemma routedModel_enabled (cfg : LoopCfg) (m : Manager) (hen : m.cfg.enabled = true) :
    routedModel cfg (some m) = (ResolveRoute m).model := by
  unfold routedModel
  dsimp only
  rw [if_pos hen]

/-- C2: within one loop iteration, a typed rate-limit error from the backend
call makes the orchestrator consult the router; on a reported switch it
re-resolves the route and retries the identical call (same messages, same
tool definitions) exactly once against the new route — succeeding if the
retry succeeds and aborting if it fails; without a reported switch, and for
any non-rate-limit backend error, no retry happens and the turn aborts with
the error. -/
theorem C2_rate_limit_retry (env : LoopEnv) (cfg : LoopCfg) (m : Manager) (callIdx : Nat)
    (msgs : List Msg) (hen : m.cfg.enabled = true) :
    (∀ rl : RateLimitErr,
      env.chat callIdx (ResolveRoute m).model msgs cfg.toolDefs = .error (.rateLimit rl) →
      (((OnLLMRateLimited env.parseDate (env.clock callIdx) m (ResolveRoute m).model
            (some (.rateLimit rl))).1.switched = true →
          (llmCallPhase env cfg (some m) callIdx msgs).2.1 =
            [⟨(ResolveRoute m).model, msgs, cfg.toolDefs⟩,
              ⟨(ResolveRoute (OnLLMRateLimited env.parseDate (env.clock callIdx) m
                  (ResolveRoute m).model (some (.rateLimit rl))).2).model, msgs,
                cfg.toolDefs⟩] ∧
          (∀ resp, env.chat (callIdx + 1)
              (ResolveRoute (OnLLMRateLimited env.parseDate (env.clock callIdx) m
                (ResolveRoute m).model (some (.rateLimit rl))).2).model msgs cfg.toolDefs =
              .ok resp →
            (llmCallPhase env cfg (some m) callIdx msgs).2.2.2 =
              .ok resp (ResolveRoute (OnLLMRateLimited env.parseDate (env.clock callIdx) m
                (ResolveRoute m).model (some (.rateLimit rl))).2).model) ∧
          (∀ e2, env.chat (callIdx + 1)
              (ResolveRoute (OnLLMRateLimited env.parseDate (env.clock callIdx) m
                (ResolveRoute m).model (some (.rateLimit rl))).2).model msgs cfg.toolDefs =
              .error e2 →
            (llmCallPhase env cfg (some m) callIdx msgs).2.2.2 = .fail e2)) ∧
        ((OnLLMRateLimited env.parseDate (env.clock callIdx) m (ResolveRoute m).model
            (some (.rateLimit rl))).1.switched = false →
          (llmCallPhase env cfg (some m) callIdx msgs).2.1 =
            [⟨(ResolveRoute m).model, msgs, cfg.toolDefs⟩] ∧
          (llmCallPhase env cfg (some m) callIdx msgs).2.2.2 = .fail (.rateLimit rl)))) ∧
    (∀ s : String,
      env.chat callIdx (ResolveRoute m).model msgs cfg.toolDefs = .error (.other s) →
      llmCallPhase env cfg (some m) callIdx msgs =
        (some m, [⟨(ResolveRoute m).model, msgs, cfg.toolDefs⟩], callIdx + 1,
          .fail (.other s))) ∧
    (∀ e : LLMError, 1 ≤ cfg.maxIterations →
      (llmCallPhase env cfg (some m) 0 msgs).2.2.2 = .fail e →
      runTurn env cfg (some m) msgs = .error e) := by
  have hroute := routedModel_enabled cfg m hen
  refine ⟨?_, ?_, ?_⟩
  · intro rl hchat
    constructor
    · intro hsw
      refine ⟨?_, ?_, ?_⟩
      · unfold llmCallPhase
        dsimp only
        rw [hroute, hchat]
        dsimp only
        rw [if_pos hen, if_pos hsw]
        rcases hc2 : env.chat (callIdx + 1)
            (ResolveRoute (OnLLMRateLimited env.parseDate (env.clock callIdx) m
              (ResolveRoute m).model (some (.rateLimit rl))).2).model msgs cfg.toolDefs
          with e2 | r2 <;> rfl
      · intro resp hok
        unfold llmCallPhase
        dsimp only
        rw [hroute, hchat]
        dsimp only
        rw [if_pos hen, if_pos hsw, hok]
      · intro e2 he2
        unfold llmCallPhase
        dsimp only
        rw [hroute, hchat]
        dsimp only
        rw [if_pos hen, if_pos hsw, he2]
    · intro hsw
      have hns : ¬ (OnLLMRateLimited env.parseDate (env.clock callIdx) m
          (ResolveRoute m).model (some (.rateLimit rl))).1.switched = true := by
        rw [hsw]
        simp
      constructor
      · unfold llmCallPhase
        dsimp only
        rw [hroute, hchat]
        dsimp only
        rw [if_pos hen, if_neg hns]
      · unfold llmCallPhase
        dsimp only
        rw [hroute, hchat]
        dsimp only
        rw [if_pos hen, if_neg hns]
  · intro s hchat
    unfold llmCallPhase
    dsimp only
    rw [hroute, hchat]
  · intro e hmax hfail
    rcases hn : cfg.maxIterations with _ | n
    · omega
    · unfold runTurn
      dsimp only
      rw [show runLLMIteration env cfg (some m) msgs =
        runIterAux env cfg cfg.maxIterations 0 (some m) msgs ⟨false, [], []⟩ 0 0 [] from rfl,
        hn]
      unfold runIterAux
      rcases hphase : llmCallPhase env cfg (some m) 0 msgs with ⟨mgr', calls, callIdx', pr⟩
      rw [hphase] at hfail
      dsimp only at hfail
      subst hfail
      rfl

/-- Witness for C2: a backend whose first call is rate-limited and whose
retry fails with a non-rate-limit error; the router (primary `M0`, fallback
`M1`) switches, the retry goes to `M1` with the same messages and tool
definitions, and the turn aborts with the retry's error. -/
theorem C2_rate_limit_retry_witness :
    ((mkManager ⟨true, 300, 60, 2, 10, true, 60⟩ "M0" ["M1"] "").cfg.enabled = true ∧
      (⟨fun i _ _ _ => if i = 0 then .error (.rateLimit ⟨"rl", 429, "", "", ""⟩)
          else .error (.other "boom"), fun _ => 0, fun _ _ => ⟨"", "", true, none⟩,
          fun _ => none⟩ : LoopEnv).chat 0
        (ResolveRoute (mkManager ⟨true, 300, 60, 2, 10, true, 60⟩ "M0" ["M1"] "")).model []
        (⟨1, "M0", ["d"], 8, "fallback text"⟩ : LoopCfg).toolDefs =
        .error (.rateLimit ⟨"rl", 429, "", "", ""⟩) ∧
      (OnLLMRateLimited (fun _ => none) 0 (mkManager ⟨true, 300, 60, 2, 10, true, 60⟩ "M0" ["M1"] "")
        (ResolveRoute (mkManager ⟨true, 300, 60, 2, 10, true, 60⟩ "M0" ["M1"] "")).model
        (some (.rateLimit ⟨"rl", 429, "", "", ""⟩))).1.switched = true) ∧
    (llmCallPhase
        ⟨fun i _ _ _ => if i = 0 then .error (.rateLimit ⟨"rl", 429, "", "", ""⟩)
          else .error (.other "boom"), fun _ => 0, fun _ _ => ⟨"", "", true, none⟩,
          fun _ => none⟩
        ⟨1, "M0", ["d"], 8, "fallback text"⟩
        (some (mkManager ⟨true, 300, 60, 2, 10, true, 60⟩ "M0" ["M1"] "")) 0 []).2.1 =
      [⟨(ResolveRoute (mkManager ⟨true, 300, 60, 2, 10, true, 60⟩ "M0" ["M1"] "")).model, [],
          (⟨1, "M0", ["d"], 8, "fallback text"⟩ : LoopCfg).toolDefs⟩,
        ⟨(ResolveRoute (OnLLMRateLimited (fun _ => none) 0
            (mkManager ⟨true, 300, 60, 2, 10, true, 60⟩ "M0" ["M1"] "")
            (ResolveRoute (mkManager ⟨true, 300, 60, 2, 10, true, 60⟩ "M0" ["M1"] "")).model
            (some (.rateLimit ⟨"rl", 429, "", "", ""⟩))).2).model, [],
          (⟨1, "M0", ["d"], 8, "fallback text"⟩ : LoopCfg).toolDefs⟩] ∧
    (llmCallPhase
        ⟨fun i _ _ _ => if i = 0 then .error (.rateLimit ⟨"rl", 429, "", "", ""⟩)
          else .error (.other "boom"), fun _ => 0, fun _ _ => ⟨"", "", true, none⟩,
          fun _ => none⟩
        ⟨1, "M0", ["d"], 8, "fallback text"⟩
        (some (mkManager ⟨true, 300, 60, 2, 10, true, 60⟩ "M0" ["M1"] "")) 0 []).2.2.2 =
      .fail (.other "boom") ∧
    runTurn
        ⟨fun i _ _ _ => if i = 0 then .error (.rateLimit ⟨"rl", 429, "", "", ""⟩)
          else .error (.other "boom"), fun _ => 0, fun _ _ => ⟨"", "", true, none⟩,
          fun _ => none⟩
        ⟨1, "M0", ["d"], 8, "fallback text"⟩
        (some (mkManager ⟨true, 300, 60, 2, 10, true, 60⟩ "M0" ["M1"] "")) [] =
      .error (.other "boom") := by
  have h := C2_rate_limit_retry
    ⟨fun i _ _ _ => if i = 0 then .error (.rateLimit ⟨"rl", 429, "", "", ""⟩)
      else .error (.other "boom"), fun _ => 0, fun _ _ => ⟨"", "", true, none⟩,
      fun _ => none⟩
    ⟨1, "M0", ["d"], 8, "fallback text"⟩
    (mkManager ⟨true, 300, 60, 2, 10, true, 60⟩ "M0" ["M1"] "") 0 [] rfl
  have hchat : (⟨fun i _ _ _ => if i = 0 then .error (.rateLimit ⟨"rl", 429, "", "", ""⟩)
      else .error (.other "boom"), fun _ => 0, fun _ _ => ⟨"", "", true, none⟩,
      fun _ => none⟩ : LoopEnv).chat 0
      (ResolveRoute (mkManager ⟨true, 300, 60, 2, 10, true, 60⟩ "M0" ["M1"] "")).model []
      (⟨1, "M0", ["d"], 8, "fallback text"⟩ : LoopCfg).toolDefs =
      .error (.rateLimit ⟨"rl", 429, "", "", ""⟩) := rfl
  have hsw : (OnLLMRateLimited (fun _ => none) 0
      (mkManager ⟨true, 300, 60, 2, 10, true, 60⟩ "M0" ["M1"] "")
      (ResolveRoute (mkManager ⟨true, 300, 60, 2, 10, true, 60⟩ "M0" ["M1"] "")).model
      (some (.rateLimit ⟨"rl", 429, "", "", ""⟩))).1.switched = true := by decide
  obtain ⟨htrace, _hokf, herrf⟩ := (h.1 ⟨"rl", 429, "", "", ""⟩ hchat).1 hsw
  have hfail := herrf (.other "boom") rfl
  exact ⟨⟨rfl, hchat, hsw⟩, htrace, hfail, h.2.2 (.other "boom") (by decide) hfail⟩

end Picoclaw
